import Mathlib

/-!
Verification development for the item-migration verification tool.

The tool reconciles a legacy flat table family against a new normalized
table family over MySQL.  We give a shallow embedding of its comparison
logic: SQL values are Option-typed (none models SQL NULL and JS
undefined/null), tables are lists of rows, SQL comparison predicates use
three-valued-logic truth (a NULL-involved comparison is never true), and
the JavaScript post-processing uses plain Option equality (null !== null
is false in JS strict comparison).
-/

/-- SQL equality as a filter condition: true only when both operands are
non-NULL and equal (NULL = x is UNKNOWN, hence not selected). -/
def sqlEq {α : Type} [DecidableEq α] : Option α → Option α → Bool
  | some a, some b => a = b
  | _, _ => false

/-- SQL inequality as a filter condition: true only when both operands are
non-NULL and different. -/
def sqlNeq {α : Type} [DecidableEq α] : Option α → Option α → Bool
  | some a, some b => a ≠ b
  | _, _ => false

/-- JavaScript strict inequality on two SQL-fetched values: null !== null
is false, null !== v is true for non-null v. -/
def jsNeq {α : Type} [DecidableEq α] (a b : Option α) : Bool := a ≠ b

/-- A row of vendor_item_price_mapping or im_sku_price_mapping, restricted
to the columns the price reconciliation reads.  Every field is nullable. -/
structure PriceRow where
  sku_code : Option String
  price_book_id : Option Int
  mrp : Option Int
  rsp : Option Int
  spp : Option Int
deriving DecidableEq, Repr

/-- The composite entity key of the price tables. -/
def rowKey (r : PriceRow) : Option String × Option Int :=
  (r.sku_code, r.price_book_id)

/-- SQL UNION of the (sku_code, price_book_id) pairs of both tables:
duplicates are removed and, as in SQL DISTINCT/UNION, two NULLs are not
distinct from each other (Option equality). -/
def unionPairs (old new : List PriceRow) : List (Option String × Option Int) :=
  ((old ++ new).map rowKey).dedup

/-- The join condition c.sku_code = t.sku_code AND c.price_book_id =
t.price_book_id under SQL semantics (NULL keys never match). -/
def keyMatches (k : Option String × Option Int) (r : PriceRow) : Bool :=
  sqlEq r.sku_code k.1 && sqlEq r.price_book_id k.2

/-- Embedding of the JS pattern: limit ? ` LIMIT limit` : ''.
A limit of 0 is falsy in JS, so it produces no LIMIT clause. -/
def applyLimit {α : Type} (limit : Option Nat) (l : List α) : List α :=
  match limit with
  | none => l
  | some n => if n = 0 then l else l.take n

/-- One difference entry {field, old_value, new_value} pushed by the JS
classification loops. -/
structure PriceDiff where
  field : String
  old_value : Option Int
  new_value : Option Int
deriving DecidableEq, Repr

/-- One element of the mismatches array: {sku_code, price_book_id,
differences}. -/
structure PriceMismatch where
  sku_code : Option String
  price_book_id : Option Int
  differences : List PriceDiff
deriving DecidableEq, Repr

/-- The price triple stored by the outer-join strategies in a missing
record: {mrp, rsp, spp} taken from the surviving side. -/
structure MissingPrices where
  mrp : Option Int
  rsp : Option Int
  spp : Option Int
deriving DecidableEq, Repr

/-- A missing record of comparePrices / comparePricesOptimized. -/
structure MissingPriceRec where
  sku_code : Option String
  price_book_id : Option Int
  prices : MissingPrices
deriving DecidableEq, Repr

/-- Result shape of comparePrices / comparePricesOptimized (executionTime,
being pure wall-clock telemetry, is not modelled). -/
structure PriceResult where
  mismatches : List PriceMismatch
  missingInNew : List MissingPriceRec
  missingInOld : List MissingPriceRec
deriving DecidableEq, Repr

/-- Componentwise concatenation of two classification results; sequential
pushes into the three arrays amount to folding with this operation. -/
def PriceResult.append (a b : PriceResult) : PriceResult :=
  ⟨a.mismatches ++ b.mismatches, a.missingInNew ++ b.missingInNew,
    a.missingInOld ++ b.missingInOld⟩

/-- One row of the outer-join query result set, mirroring its SELECT list:
COALESCEd key columns, the six price columns of both sides, and the CASE
status string. -/
structure JoinedRow where
  sku_code : Option String
  price_book_id : Option Int
  old_mrp : Option Int
  new_mrp : Option Int
  old_rsp : Option Int
  new_rsp : Option Int
  old_spp : Option Int
  new_spp : Option Int
  status : String
deriving DecidableEq, Repr

/-- LEFT JOIN of one combined_skus key against a price table: the list of
matched rows, or a single all-NULL row (none) when nothing matches. -/
def leftJoinSide (t : List PriceRow) (k : Option String × Option Int) :
    List (Option PriceRow) :=
  match t.filter (keyMatches k) with
  | [] => [none]
  | l => l.map some

/-- The WHERE clause of the outer-join query: o.sku_code IS NULL OR
n.sku_code IS NULL OR o.mrp != n.mrp OR o.rsp != n.rsp OR o.spp != n.spp,
evaluated over the joined (o, n) pair with SQL three-valued semantics. -/
def wherePasses (o n : Option PriceRow) : Bool :=
  decide (o.bind PriceRow.sku_code = none)
    || decide (n.bind PriceRow.sku_code = none)
    || sqlNeq (o.bind PriceRow.mrp) (n.bind PriceRow.mrp)
    || sqlNeq (o.bind PriceRow.rsp) (n.bind PriceRow.rsp)
    || sqlNeq (o.bind PriceRow.spp) (n.bind PriceRow.spp)

/-- SQL COALESCE on two nullable values. -/
def coalesce {α : Type} : Option α → Option α → Option α
  | some a, _ => some a
  | none, b => b

/-- The SELECT projection of the outer-join query applied to a joined
(o, n) pair, including the CASE status computation. -/
def mkJoined (o n : Option PriceRow) : JoinedRow :=
  { sku_code := coalesce (o.bind PriceRow.sku_code) (n.bind PriceRow.sku_code)
  , price_book_id := coalesce (o.bind PriceRow.price_book_id)
      (n.bind PriceRow.price_book_id)
  , old_mrp := o.bind PriceRow.mrp
  , new_mrp := n.bind PriceRow.mrp
  , old_rsp := o.bind PriceRow.rsp
  , new_rsp := n.bind PriceRow.rsp
  , old_spp := o.bind PriceRow.spp
  , new_spp := n.bind PriceRow.spp
  , status :=
      if o.bind PriceRow.sku_code = none then "missing_in_old"
      else if n.bind PriceRow.sku_code = none then "missing_in_new"
      else "exists_in_both" }

/-- All (o, n) join combinations contributed by one combined_skus key. -/
def joinPairsFor (old new : List PriceRow) (k : Option String × Option Int) :
    List (Option PriceRow × Option PriceRow) :=
  (leftJoinSide old k).foldr
    (fun o acc => ((leftJoinSide new k).map (fun n => (o, n))) ++ acc) []

/-- The query rows contributed by one combined_skus key, after the WHERE
filter and the SELECT projection. -/
def queryRowsFor (old new : List PriceRow) (k : Option String × Option Int) :
    List JoinedRow :=
  ((joinPairsFor old new k).filter (fun p => wherePasses p.1 p.2)).map
    (fun p => mkJoined p.1 p.2)

/-- The full outer-join result set: one block of rows per combined key. -/
def queryRowsAll (old new : List PriceRow) :
    List (Option String × Option Int) → List JoinedRow
  | [] => []
  | k :: ks => queryRowsFor old new k ++ queryRowsAll old new ks

/-- The result rows of the single query issued (with identical text) by
comparePrices and comparePricesOptimized, including the optional LIMIT. -/
def priceQueryRows (old new : List PriceRow) (limit : Option Nat) :
    List JoinedRow :=
  applyLimit limit (queryRowsAll old new (unionPairs old new))

/-- The three (field, old, new) triples the JS loop diffs for a row. -/
def fieldTriples (r : JoinedRow) :
    List (String × Option Int × Option Int) :=
  [("mrp", r.old_mrp, r.new_mrp), ("rsp", r.old_rsp, r.new_rsp),
    ("spp", r.old_spp, r.new_spp)]

/-- The differences array built for an exists_in_both row: one entry for
every field pair with old !== newValue (JS strict inequality). -/
def jsDiffs (r : JoinedRow) : List PriceDiff :=
  (fieldTriples r).filterMap
    (fun t => if t.2.1 ≠ t.2.2 then some ⟨t.1, t.2.1, t.2.2⟩ else none)

/-- Classification of one query row, as in the for loop of comparePrices:
status missing_in_new and missing_in_old rows are pushed to the missing
lists with the surviving side prices; otherwise the differences are
computed and a mismatch is pushed only when at least one field differs. -/
def classifyRow (r : JoinedRow) : PriceResult :=
  if r.status = "missing_in_new" then
    ⟨[], [⟨r.sku_code, r.price_book_id, ⟨r.old_mrp, r.old_rsp, r.old_spp⟩⟩], []⟩
  else if r.status = "missing_in_old" then
    ⟨[], [], [⟨r.sku_code, r.price_book_id, ⟨r.new_mrp, r.new_rsp, r.new_spp⟩⟩]⟩
  else
    match jsDiffs r with
    | [] => ⟨[], [], []⟩
    | d :: ds => ⟨[⟨r.sku_code, r.price_book_id, d :: ds⟩], [], []⟩

/-- Sequential classification of all query rows. -/
def classifyRows : List JoinedRow → PriceResult
  | [] => ⟨[], [], []⟩
  | r :: rs => PriceResult.append (classifyRow r) (classifyRows rs)

/-- classifyRow of comparePricesOptimized; its loop body is character for
character the body of the loop in comparePrices minus logging. -/
def classifyRowOpt (r : JoinedRow) : PriceResult :=
  if r.status = "missing_in_new" then
    ⟨[], [⟨r.sku_code, r.price_book_id, ⟨r.old_mrp, r.old_rsp, r.old_spp⟩⟩], []⟩
  else if r.status = "missing_in_old" then
    ⟨[], [], [⟨r.sku_code, r.price_book_id, ⟨r.new_mrp, r.new_rsp, r.new_spp⟩⟩]⟩
  else
    match jsDiffs r with
    | [] => ⟨[], [], []⟩
    | d :: ds => ⟨[⟨r.sku_code, r.price_book_id, d :: ds⟩], [], []⟩

/-- Sequential classification loop of comparePricesOptimized. -/
def classifyRowsOpt : List JoinedRow → PriceResult
  | [] => ⟨[], [], []⟩
  | r :: rs => PriceResult.append (classifyRowOpt r) (classifyRowsOpt rs)

/-- The exported comparePrices function of priceComparison.js: the
outer-join query followed by the classification loop. -/
def comparePrices (old new : List PriceRow) (limit : Option Nat) :
    PriceResult :=
  classifyRows (priceQueryRows old new limit)

/-- comparePricesOptimized of priceComparison.js: it issues the same query
text as comparePrices and classifies the rows with the same loop. -/
def comparePricesOptimized (old new : List PriceRow) (limit : Option Nat) :
    PriceResult :=
  classifyRowsOpt (priceQueryRows old new limit)

/-- A missing record of comparePricesOriginal: the prices field stores the
whole surviving row (SELECT sku_code, price_book_id, mrp, rsp, spp). -/
structure OrigMissingRec where
  sku_code : Option String
  price_book_id : Option Int
  prices : PriceRow
deriving DecidableEq, Repr

/-- Result shape of comparePricesOriginal. -/
structure OrigResult where
  mismatches : List PriceMismatch
  missingInNew : List OrigMissingRec
  missingInOld : List OrigMissingRec
deriving DecidableEq, Repr

/-- Componentwise concatenation for OrigResult. -/
def OrigResult.append (a b : OrigResult) : OrigResult :=
  ⟨a.mismatches ++ b.mismatches, a.missingInNew ++ b.missingInNew,
    a.missingInOld ++ b.missingInOld⟩

/-- The differences loop of comparePricesOriginal over the first fetched
row of each side: for each of mrp, rsp, spp push a difference when
oldPrices[0][field] !== newPrices[0][field]. -/
def origDiffs (o n : PriceRow) : List PriceDiff :=
  ([("mrp", o.mrp, n.mrp), ("rsp", o.rsp, n.rsp), ("spp", o.spp, n.spp)]
    : List (String × Option Int × Option Int)).filterMap
    (fun t => if t.2.1 ≠ t.2.2 then some ⟨t.1, t.2.1, t.2.2⟩ else none)

/-- The body of the per-pair loop of comparePricesOriginal: the two
parameterized per-key lookups (WHERE sku_code = ? AND price_book_id = ?
under SQL equality) and the three-way classification on emptiness. -/
def origStep (old new : List PriceRow) (k : Option String × Option Int) :
    OrigResult :=
  match old.filter (keyMatches k), new.filter (keyMatches k) with
  | [], [] => ⟨[], [], []⟩
  | [], n :: _ => ⟨[], [], [⟨k.1, k.2, n⟩]⟩
  | o :: _, [] => ⟨[], [⟨k.1, k.2, o⟩], []⟩
  | o :: _, n :: _ =>
    match origDiffs o n with
    | [] => ⟨[], [], []⟩
    | d :: ds => ⟨[⟨k.1, k.2, d :: ds⟩], [], []⟩

/-- The per-pair loop of comparePricesOriginal. -/
def origRun (old new : List PriceRow) :
    List (Option String × Option Int) → OrigResult
  | [] => ⟨[], [], []⟩
  | k :: ks => OrigResult.append (origStep old new k) (origRun old new ks)

/-- comparePricesOriginal of priceComparison.js: enumerate the UNION of
distinct key pairs (the LIMIT applies to this union query) and classify
each pair by two per-key lookups. -/
def comparePricesOriginal (old new : List PriceRow) (limit : Option Nat) :
    OrigResult :=
  origRun old new (applyLimit limit (unionPairs old new))

/-- The two classification loop embeddings agree pointwise. -/
lemma classifyRowOpt_eq (r : JoinedRow) : classifyRowOpt r = classifyRow r := by
  rfl

/-- The classification loops of comparePrices and comparePricesOptimized
agree on every row list. -/
lemma classifyRowsOpt_eq (rs : List JoinedRow) :
    classifyRowsOpt rs = classifyRows rs := by
  induction rs with
  | nil => rfl
  | cons r rs ih => simp [classifyRows, classifyRowsOpt, classifyRowOpt_eq, ih]

/-- Claim C9: for every pair of table snapshots and every limit argument,
the exported comparePrices returns exactly the same mismatches and
missing lists as comparePricesOptimized: the two functions issue the same
outer-join query and apply the same row classification, so the
orchestrator price step is the outer-join strategy. -/
theorem spec_c9_comparePrices_is_optimized
    (old new : List PriceRow) (limit : Option Nat) :
    comparePrices old new limit = comparePricesOptimized old new limit := by
  simp [comparePrices, comparePricesOptimized, classifyRowsOpt_eq]

/-- Key projection of a mismatches list. -/
def mismatchKeys (l : List PriceMismatch) : List (Option String × Option Int) :=
  l.map (fun m => (m.sku_code, m.price_book_id))

/-- Key projection of a missing list of the outer-join strategies. -/
def missKeys (l : List MissingPriceRec) : List (Option String × Option Int) :=
  l.map (fun m => (m.sku_code, m.price_book_id))

/-- Key projection of a missing list of the nested-lookup strategy. -/
def omissKeys (l : List OrigMissingRec) : List (Option String × Option Int) :=
  l.map (fun m => (m.sku_code, m.price_book_id))

/-- A database row with no NULL in any of the five price columns. -/
def FullRow (r : PriceRow) : Prop :=
  r.sku_code ≠ none ∧ r.price_book_id ≠ none ∧ r.mrp ≠ none ∧
    r.rsp ≠ none ∧ r.spp ≠ none

instance : DecidablePred FullRow := fun r => by
  unfold FullRow; infer_instance

lemma sqlEq_true_iff {α : Type} [DecidableEq α] {x y : Option α} :
    sqlEq x y = true ↔ x = y ∧ x ≠ none := by
  cases x <;> cases y <;> simp [sqlEq, eq_comm]

lemma keyMatches_eq_rowKey {k : Option String × Option Int} {r : PriceRow}
    (h : keyMatches k r = true) : rowKey r = k := by
  unfold keyMatches at h
  rw [Bool.and_eq_true] at h
  obtain ⟨h1, h2⟩ := h
  rw [sqlEq_true_iff] at h1 h2
  unfold rowKey
  rw [h1.1, h2.1]

lemma keyMatches_self {r : PriceRow} (h1 : r.sku_code ≠ none)
    (h2 : r.price_book_id ≠ none) : keyMatches (rowKey r) r = true := by
  unfold keyMatches rowKey
  rw [Bool.and_eq_true, sqlEq_true_iff, sqlEq_true_iff]
  exact ⟨⟨rfl, h1⟩, ⟨rfl, h2⟩⟩

lemma mem_unionPairs_src {old new : List PriceRow}
    {k : Option String × Option Int} (h : k ∈ unionPairs old new) :
    ∃ r, (r ∈ old ∨ r ∈ new) ∧ rowKey r = k := by
  unfold unionPairs at h
  rw [List.mem_dedup, List.mem_map] at h
  obtain ⟨r, hr, hk⟩ := h
  rw [List.mem_append] at hr
  exact ⟨r, hr, hk⟩

lemma filter_key_single {l : List PriceRow} (hnd : (l.map rowKey).Nodup)
    (k : Option String × Option Int) :
    l.filter (keyMatches k) = [] ∨
      ∃ r, l.filter (keyMatches k) = [r] ∧ keyMatches k r = true := by
  induction l with
  | nil => left; rfl
  | cons a t ih =>
    rw [List.map_cons, List.nodup_cons] at hnd
    by_cases ha : keyMatches k a = true
    · right
      refine ⟨a, ?_, ha⟩
      have htail : t.filter (keyMatches k) = [] := by
        rw [List.filter_eq_nil_iff]
        intro r hr hkr
        have hra : rowKey a = k := keyMatches_eq_rowKey ha
        have hrk : rowKey r = rowKey a := by
          rw [keyMatches_eq_rowKey hkr, hra]
        exact hnd.1 (hrk ▸ List.mem_map_of_mem rowKey hr)
      simp [List.filter_cons, ha, htail]
    · have := ih hnd.2
      simpa [List.filter_cons, ha] using this

lemma coalesce_none_right {α : Type} (x : Option α) : coalesce x none = x := by
  cases x <;> rfl

lemma PriceResult.append_empty (x : PriceResult) :
    x.append ⟨[], [], []⟩ = x := by
  cases x; simp [PriceResult.append]

lemma FullRow.fields {r : PriceRow} (F : FullRow r) :
    ∃ s p a b c, r.sku_code = some s ∧ r.price_book_id = some p ∧
      r.mrp = some a ∧ r.rsp = some b ∧ r.spp = some c := by
  obtain ⟨h1, h2, h3, h4, h5⟩ := F
  obtain ⟨s, hs⟩ := Option.ne_none_iff_exists'.mp h1
  obtain ⟨p, hp⟩ := Option.ne_none_iff_exists'.mp h2
  obtain ⟨a, ha⟩ := Option.ne_none_iff_exists'.mp h3
  obtain ⟨b, hb⟩ := Option.ne_none_iff_exists'.mp h4
  obtain ⟨c, hc⟩ := Option.ne_none_iff_exists'.mp h5
  exact ⟨s, p, a, b, c, hs, hp, ha, hb, hc⟩

lemma leftJoinSide_nil {t : List PriceRow} {k : Option String × Option Int}
    (h : t.filter (keyMatches k) = []) : leftJoinSide t k = [none] := by
  unfold leftJoinSide; rw [h]

lemma leftJoinSide_single {t : List PriceRow} {k : Option String × Option Int}
    {r : PriceRow} (h : t.filter (keyMatches k) = [r]) :
    leftJoinSide t k = [some r] := by
  unfold leftJoinSide; rw [h]; rfl

lemma joinPairsFor_shape {old new : List PriceRow}
    {k : Option String × Option Int} {o n : List (Option PriceRow)}
    (ho : leftJoinSide old k = o) (hn : leftJoinSide new k = n) :
    joinPairsFor old new k = o.foldr
      (fun x acc => (n.map (fun y => (x, y))) ++ acc) [] := by
  unfold joinPairsFor; rw [ho, hn]

lemma mkJoined_some_none {o : PriceRow} {s : String}
    (hs : o.sku_code = some s) :
    mkJoined (some o) none =
      ⟨o.sku_code, o.price_book_id, o.mrp, none, o.rsp, none, o.spp, none,
        "missing_in_new"⟩ := by
  simp [mkJoined, Option.bind, coalesce_none_right, hs]

lemma mkJoined_none_some (n : PriceRow) :
    mkJoined none (some n) =
      ⟨n.sku_code, n.price_book_id, none, n.mrp, none, n.rsp, none, n.spp,
        "missing_in_old"⟩ := by
  simp [mkJoined, Option.bind, coalesce]

lemma mkJoined_some_some {o n : PriceRow} {s t : String} {p : Int}
    (hs : o.sku_code = some s) (hp : o.price_book_id = some p)
    (ht : n.sku_code = some t) :
    mkJoined (some o) (some n) =
      ⟨o.sku_code, o.price_book_id, o.mrp, n.mrp, o.rsp, n.rsp, o.spp, n.spp,
        "exists_in_both"⟩ := by
  simp [mkJoined, Option.bind, hs, hp, ht, coalesce]

lemma wherePasses_some_none (o : PriceRow) :
    wherePasses (some o) none = true := by
  simp [wherePasses, Option.bind]

lemma wherePasses_none_some (n : PriceRow) :
    wherePasses none (some n) = true := by
  simp [wherePasses, Option.bind]

lemma wherePasses_some_some {o n : PriceRow} {s t : String}
    (hs : o.sku_code = some s) (ht : n.sku_code = some t) :
    wherePasses (some o) (some n) =
      (sqlNeq o.mrp n.mrp || sqlNeq o.rsp n.rsp || sqlNeq o.spp n.spp) := by
  simp [wherePasses, Option.bind, hs, ht]

lemma jsDiffs_fields (sk : Option String) (pb m1 m2 r1 r2 s1 s2 : Option Int)
    (st : String) :
    jsDiffs ⟨sk, pb, m1, m2, r1, r2, s1, s2, st⟩ =
      ([("mrp", m1, m2), ("rsp", r1, r2), ("spp", s1, s2)]
        : List (String × Option Int × Option Int)).filterMap
        (fun t => if t.2.1 ≠ t.2.2 then some ⟨t.1, t.2.1, t.2.2⟩ else none) := by
  rfl

lemma origDiffs_nil_iff {o n : PriceRow} (Fo : FullRow o) (Fn : FullRow n) :
    origDiffs o n = [] ↔
      (sqlNeq o.mrp n.mrp || sqlNeq o.rsp n.rsp || sqlNeq o.spp n.spp)
        = false := by
  obtain ⟨_, _, a1, b1, c1, _, _, ha1, hb1, hc1⟩ := Fo.fields
  obtain ⟨_, _, a2, b2, c2, _, _, ha2, hb2, hc2⟩ := Fn.fields
  by_cases h1 : a1 = a2 <;> by_cases h2 : b1 = b2 <;> by_cases h3 : c1 = c2 <;>
    simp [origDiffs, sqlNeq, ha1, hb1, hc1, ha2, hb2, hc2, h1, h2, h3]

lemma classifyRowOpt_mnew {r : JoinedRow} (h : r.status = "missing_in_new") :
    classifyRowOpt r =
      ⟨[], [⟨r.sku_code, r.price_book_id, ⟨r.old_mrp, r.old_rsp, r.old_spp⟩⟩],
        []⟩ := by
  simp [classifyRowOpt, h]

lemma classifyRowOpt_mold {r : JoinedRow} (h : r.status = "missing_in_old") :
    classifyRowOpt r =
      ⟨[], [],
        [⟨r.sku_code, r.price_book_id, ⟨r.new_mrp, r.new_rsp, r.new_spp⟩⟩]⟩ := by
  simp [classifyRowOpt, h]

lemma classifyRowOpt_both {r : JoinedRow} (h : r.status = "exists_in_both") :
    classifyRowOpt r =
      match jsDiffs r with
      | [] => ⟨[], [], []⟩
      | d :: ds => ⟨[⟨r.sku_code, r.price_book_id, d :: ds⟩], [], []⟩ := by
  simp [classifyRowOpt, h]

lemma queryRowsFor_sn {old new : List PriceRow}
    {k : Option String × Option Int} {o : PriceRow}
    (hod : old.filter (keyMatches k) = [o])
    (hnd : new.filter (keyMatches k) = []) :
    queryRowsFor old new k = [mkJoined (some o) none] := by
  unfold queryRowsFor
  rw [joinPairsFor_shape (leftJoinSide_single hod) (leftJoinSide_nil hnd)]
  simp [wherePasses_some_none]

lemma queryRowsFor_ns {old new : List PriceRow}
    {k : Option String × Option Int} {n : PriceRow}
    (hod : old.filter (keyMatches k) = [])
    (hnd : new.filter (keyMatches k) = [n]) :
    queryRowsFor old new k = [mkJoined none (some n)] := by
  unfold queryRowsFor
  rw [joinPairsFor_shape (leftJoinSide_nil hod) (leftJoinSide_single hnd)]
  simp [wherePasses_none_some]

lemma queryRowsFor_ss {old new : List PriceRow}
    {k : Option String × Option Int} {o n : PriceRow}
    (hod : old.filter (keyMatches k) = [o])
    (hnd : new.filter (keyMatches k) = [n]) :
    queryRowsFor old new k =
      if wherePasses (some o) (some n) then [mkJoined (some o) (some n)]
      else [] := by
  unfold queryRowsFor
  rw [joinPairsFor_shape (leftJoinSide_single hod) (leftJoinSide_single hnd)]
  by_cases hw : wherePasses (some o) (some n) <;> simp [hw]

lemma classifyRowsOpt_single (r : JoinedRow) :
    classifyRowsOpt [r] = classifyRowOpt r := by
  show (classifyRowOpt r).append ⟨[], [], []⟩ = classifyRowOpt r
  exact PriceResult.append_empty _

lemma classifyRowsOpt_append (a b : List JoinedRow) :
    classifyRowsOpt (a ++ b) =
      (classifyRowsOpt a).append (classifyRowsOpt b) := by
  induction a with
  | nil => simp [classifyRowsOpt, PriceResult.append]
  | cons r rs ih =>
    simp [classifyRowsOpt, ih, PriceResult.append, List.append_assoc]

lemma mem_of_filter_single {l : List PriceRow}
    {k : Option String × Option Int} {r : PriceRow}
    (h : l.filter (keyMatches k) = [r]) : r ∈ l := by
  have : r ∈ l.filter (keyMatches k) := by
    rw [h]; exact List.mem_singleton_self r
  exact (List.mem_filter.mp this).1

lemma key_contrib_eq (old new : List PriceRow)
    (hfo : ∀ r ∈ old, FullRow r) (hfn : ∀ r ∈ new, FullRow r)
    (hno : ((old.map rowKey).Nodup)) (hnn : ((new.map rowKey).Nodup))
    (k : Option String × Option Int) (hk : k ∈ unionPairs old new) :
    mismatchKeys (classifyRowsOpt (queryRowsFor old new k)).mismatches
        = mismatchKeys (origStep old new k).mismatches
      ∧ missKeys (classifyRowsOpt (queryRowsFor old new k)).missingInNew
        = omissKeys (origStep old new k).missingInNew
      ∧ missKeys (classifyRowsOpt (queryRowsFor old new k)).missingInOld
        = omissKeys (origStep old new k).missingInOld := by
  rcases filter_key_single hno k with hod | ⟨o, hod, hko⟩
  · rcases filter_key_single hnn k with hnd | ⟨n, hnd, hkn⟩
    · exfalso
      obtain ⟨r, hr, hrk⟩ := mem_unionPairs_src hk
      cases hr with
      | inl h =>
        have F := hfo r h
        have hm : keyMatches k r = true := by
          rw [← hrk]; exact keyMatches_self F.1 F.2.1
        exact absurd hm (by simpa using List.filter_eq_nil_iff.mp hod r h)
      | inr h =>
        have F := hfn r h
        have hm : keyMatches k r = true := by
          rw [← hrk]; exact keyMatches_self F.1 F.2.1
        exact absurd hm (by simpa using List.filter_eq_nil_iff.mp hnd r h)
    · -- pair present only in the new table: classified missing_in_old
      have hkn2 : rowKey n = k := keyMatches_eq_rowKey hkn
      rw [queryRowsFor_ns hod hnd, classifyRowsOpt_single,
        mkJoined_none_some n]
      rw [classifyRowOpt_mold rfl]
      simp only [origStep, hod, hnd]
      refine ⟨?_, ?_, ?_⟩ <;>
        simp [mismatchKeys, missKeys, omissKeys, ← hkn2, rowKey]
  · rcases filter_key_single hnn k with hnd | ⟨n, hnd, hkn⟩
    · -- pair present only in the old table: classified missing_in_new
      have hko2 : rowKey o = k := keyMatches_eq_rowKey hko
      have Fo := hfo o (mem_of_filter_single hod)
      obtain ⟨s, hs⟩ := Option.ne_none_iff_exists'.mp Fo.1
      rw [queryRowsFor_sn hod hnd, classifyRowsOpt_single,
        mkJoined_some_none hs]
      rw [classifyRowOpt_mnew rfl]
      simp only [origStep, hod, hnd]
      refine ⟨?_, ?_, ?_⟩ <;>
        simp [mismatchKeys, missKeys, omissKeys, ← hko2, rowKey]
    · -- pair present in both tables
      have hko2 : rowKey o = k := keyMatches_eq_rowKey hko
      have Fo := hfo o (mem_of_filter_single hod)
      have Fn := hfn n (mem_of_filter_single hnd)
      obtain ⟨s, hs⟩ := Option.ne_none_iff_exists'.mp Fo.1
      obtain ⟨p, hp⟩ := Option.ne_none_iff_exists'.mp Fo.2.1
      obtain ⟨t, ht⟩ := Option.ne_none_iff_exists'.mp Fn.1
      rw [queryRowsFor_ss hod hnd, wherePasses_some_some hs ht]
      by_cases hw :
          (sqlNeq o.mrp n.mrp || sqlNeq o.rsp n.rsp || sqlNeq o.spp n.spp)
            = true
      · rw [if_pos hw, classifyRowsOpt_single, mkJoined_some_some hs hp ht,
          classifyRowOpt_both rfl]
        have hne : origDiffs o n ≠ [] := by
          intro hnil
          rw [(origDiffs_nil_iff Fo Fn).mp hnil] at hw
          exact Bool.false_ne_true hw
        have hjs : jsDiffs
            ⟨o.sku_code, o.price_book_id, o.mrp, n.mrp, o.rsp, n.rsp,
              o.spp, n.spp, "exists_in_both"⟩ = origDiffs o n := rfl
        simp only [origStep, hod, hnd, hjs]
        cases hd : origDiffs o n with
        | nil => exact absurd hd hne
        | cons d ds =>
          refine ⟨?_, ?_, ?_⟩ <;>
            simp [mismatchKeys, missKeys, omissKeys, ← hko2, rowKey]
      · rw [if_neg hw, Bool.not_eq_true] at *
        have hnil : origDiffs o n = [] := (origDiffs_nil_iff Fo Fn).mpr hw
        simp only [origStep, hod, hnd, hnil]
        exact ⟨rfl, rfl, rfl⟩

lemma run_keys_eq (old new : List PriceRow)
    (hfo : ∀ r ∈ old, FullRow r) (hfn : ∀ r ∈ new, FullRow r)
    (hno : ((old.map rowKey).Nodup)) (hnn : ((new.map rowKey).Nodup)) :
    ∀ ks, (∀ k ∈ ks, k ∈ unionPairs old new) →
      mismatchKeys (classifyRowsOpt (queryRowsAll old new ks)).mismatches
          = mismatchKeys (origRun old new ks).mismatches
        ∧ missKeys (classifyRowsOpt (queryRowsAll old new ks)).missingInNew
          = omissKeys (origRun old new ks).missingInNew
        ∧ missKeys (classifyRowsOpt (queryRowsAll old new ks)).missingInOld
          = omissKeys (origRun old new ks).missingInOld := by
  intro ks
  induction ks with
  | nil => intro _; exact ⟨rfl, rfl, rfl⟩
  | cons k ks ih =>
    intro hmem
    have hk := hmem k (List.mem_cons_self k ks)
    have hrest := ih (fun x hx => hmem x (List.mem_cons_of_mem k hx))
    have hkey := key_contrib_eq old new hfo hfn hno hnn k hk
    simp only [queryRowsAll, classifyRowsOpt_append, origRun,
      PriceResult.append, OrigResult.append, mismatchKeys, missKeys,
      omissKeys, List.map_append] at hkey hrest ⊢
    exact ⟨by rw [hkey.1, hrest.1], by rw [hkey.2.1, hrest.2.1],
      by rw [hkey.2.2, hrest.2.2]⟩

/-- Claim C1 (amended): the nested-lookup strategy comparePricesOriginal
and the outer-join strategy comparePricesOptimized return the same
(sku_code, price_book_id) key lists for mismatches, missing.missingInNew
and missing.missingInOld on every snapshot in which every row of both
price tables has non-NULL sku_code, price_book_id, mrp, rsp and spp and
each table holds at most one row per (sku_code, price_book_id) pair, with
no row cap.  The restriction to NULL-free rows is forced by the
counterexample: the outer-join WHERE clause drops a row whose only
difference is NULL versus non-NULL in a price field, while the
nested-lookup strategy reports it (NULL keys and duplicate key pairs
likewise separate the two strategies). -/
theorem spec_c1_amended (old new : List PriceRow)
    (hfo : ∀ r ∈ old, FullRow r) (hfn : ∀ r ∈ new, FullRow r)
    (hno : ((old.map rowKey).Nodup)) (hnn : ((new.map rowKey).Nodup)) :
    mismatchKeys (comparePricesOptimized old new none).mismatches
        = mismatchKeys (comparePricesOriginal old new none).mismatches
      ∧ missKeys (comparePricesOptimized old new none).missingInNew
        = omissKeys (comparePricesOriginal old new none).missingInNew
      ∧ missKeys (comparePricesOptimized old new none).missingInOld
        = omissKeys (comparePricesOriginal old new none).missingInOld := by
  have h := run_keys_eq old new hfo hfn hno hnn (unionPairs old new)
    (fun k hk => hk)
  simpa [comparePricesOptimized, comparePricesOriginal, priceQueryRows,
    applyLimit] using h

/-- Claim C1 counterexample: old table row (A, 1) has NULL mrp, new table
row (A, 1) has mrp 5 and the other fields agree.  With no row cap the
nested-lookup strategy reports the pair (A, 1) as a mismatch, but the
outer-join strategy returns no mismatch at all: its WHERE clause requires
a comparison to be SQL-true and NULL != 5 is UNKNOWN.  Hence the two
strategies do not return equal sets of pairs in mismatches. -/
theorem spec_c1_cex :
    (some "A", some (1 : Int)) ∈ mismatchKeys
        (comparePricesOriginal [⟨some "A", some 1, none, some 1, some 1⟩]
          [⟨some "A", some 1, some 5, some 1, some 1⟩] none).mismatches
      ∧ mismatchKeys
        (comparePricesOptimized [⟨some "A", some 1, none, some 1, some 1⟩]
          [⟨some "A", some 1, some 5, some 1, some 1⟩] none).mismatches
        = [] := by
  decide

/-- Old-table snapshot used to witness the amended claim C1. -/
def c1WitnessOld : List PriceRow :=
  [⟨some "A", some 1, some 10, some 20, some 30⟩,
    ⟨some "B", some 2, some 1, some 2, some 3⟩]

/-- New-table snapshot used to witness the amended claim C1. -/
def c1WitnessNew : List PriceRow :=
  [⟨some "A", some 1, some 11, some 20, some 30⟩]

/-- Witness: the amended claim C1 applied to a concrete NULL-free
snapshot with unique keys. -/
theorem spec_c1_witness :
    mismatchKeys (comparePricesOptimized c1WitnessOld c1WitnessNew
        none).mismatches
      = mismatchKeys (comparePricesOriginal c1WitnessOld c1WitnessNew
        none).mismatches
      ∧ missKeys (comparePricesOptimized c1WitnessOld c1WitnessNew
        none).missingInNew
      = omissKeys (comparePricesOriginal c1WitnessOld c1WitnessNew
        none).missingInNew
      ∧ missKeys (comparePricesOptimized c1WitnessOld c1WitnessNew
        none).missingInOld
      = omissKeys (comparePricesOriginal c1WitnessOld c1WitnessNew
        none).missingInOld :=
  spec_c1_amended c1WitnessOld c1WitnessNew (by decide) (by decide)
    (by decide) (by decide)

/-- A row of vendor_sku_flat_table or im_sku_flat_table: the entity key
column plus a valuation of every other column by name (the flat tables
carry dynamically mapped attribute columns). -/
structure FlatRow where
  sku_code : Option String
  val : String → Option String

/-- A row of the comparison query result set: SELECT o.sku_code,
o.oldCol as old_value, n.newCol as new_value. -/
structure AttrDiff where
  sku_code : Option String
  old_value : Option String
  new_value : Option String
deriving DecidableEq, Repr

/-- LEFT JOIN im_sku_flat_table n ON o.sku_code = n.sku_code for one old
row: the matched rows, or one all-NULL row when none match. -/
def leftJoinFlat (newT : List FlatRow) (o : FlatRow) : List (Option FlatRow) :=
  match newT.filter (fun n => sqlEq n.sku_code o.sku_code) with
  | [] => [none]
  | l => l.map some

/-- The WHERE clause of the attribute, category and common-column
comparison queries: (o.c != n.c OR (o.c IS NULL AND n.c IS NOT NULL) OR
(o.c IS NOT NULL AND n.c IS NULL)) AND o.sku_code IS NOT NULL AND
n.sku_code IS NOT NULL. -/
def attrWhere (oldCol newCol : String) (o : FlatRow) (n : Option FlatRow) :
    Bool :=
  (sqlNeq (o.val oldCol) (n.bind (fun r => r.val newCol))
      || (decide (o.val oldCol = none)
          && decide (n.bind (fun r => r.val newCol) ≠ none))
      || (decide (o.val oldCol ≠ none)
          && decide (n.bind (fun r => r.val newCol) = none)))
    && decide (o.sku_code ≠ none)
    && decide (n.bind (fun r => r.sku_code) ≠ none)

/-- Query rows contributed by one old-side row. -/
def attrRowsFor (newT : List FlatRow) (oldCol newCol : String) (o : FlatRow) :
    List AttrDiff :=
  ((leftJoinFlat newT o).filter (attrWhere oldCol newCol o)).map
    (fun n => ⟨o.sku_code, o.val oldCol, n.bind (fun r => r.val newCol)⟩)

/-- The comparison query loop over the old table. -/
def attrQueryGo (newT : List FlatRow) (oldCol newCol : String) :
    List FlatRow → List AttrDiff
  | [] => []
  | o :: os =>
    attrRowsFor newT oldCol newCol o ++ attrQueryGo newT oldCol newCol os

/-- The result set of the per-mapping comparison query issued by
compareAttributeValues and compareCategoryValues for the column pair
(oldCol, newCol); the common-column query of compareCommonColumns is the
same query with oldCol = newCol. -/
def attrQuery (oldT newT : List FlatRow) (oldCol newCol : String) :
    List AttrDiff :=
  attrQueryGo newT oldCol newCol oldT

/-- Exactly one of the two values is NULL. -/
def oneNull {α : Type} (a b : Option α) : Prop :=
  (a = none ∧ b ≠ none) ∨ (a ≠ none ∧ b = none)

lemma sqlNeq_true {α : Type} [DecidableEq α] {x y : Option α}
    (h : sqlNeq x y = true) : ∃ a b, x = some a ∧ y = some b ∧ a ≠ b := by
  cases x with
  | none => simp [sqlNeq] at h
  | some a =>
    cases y with
    | none => simp [sqlNeq] at h
    | some b =>
      simp [sqlNeq] at h
      exact ⟨a, b, rfl, rfl, h⟩

lemma mem_attrQuery_shape {oldT newT : List FlatRow} {oldCol newCol : String}
    {d : AttrDiff} (h : d ∈ attrQuery oldT newT oldCol newCol) :
    ∃ o ∈ oldT, ∃ n ∈ leftJoinFlat newT o,
      attrWhere oldCol newCol o n = true ∧
        d = ⟨o.sku_code, o.val oldCol, n.bind (fun r => r.val newCol)⟩ := by
  unfold attrQuery at h
  induction oldT with
  | nil => exact absurd h (List.not_mem_nil d)
  | cons o os ih =>
    rw [attrQueryGo, List.mem_append] at h
    cases h with
    | inl h =>
      unfold attrRowsFor at h
      rw [List.mem_map] at h
      obtain ⟨n, hn, hd⟩ := h
      rw [List.mem_filter] at hn
      exact ⟨o, List.mem_cons_self o os, n, hn.1, hn.2, hd.symm⟩
    | inr h =>
      obtain ⟨o2, ho2, rest⟩ := ih h
      exact ⟨o2, List.mem_cons_of_mem o ho2, rest⟩

lemma attrWhere_not_both_none {oldCol newCol : String} {o : FlatRow}
    {n : Option FlatRow} (h : attrWhere oldCol newCol o n = true) :
    ¬(o.val oldCol = none ∧ n.bind (fun r => r.val newCol) = none) := by
  rintro ⟨h1, h2⟩
  unfold attrWhere at h
  simp [h1, h2, sqlNeq] at h

lemma mem_leftJoinFlat {newT : List FlatRow} {o n : FlatRow}
    (hn : n ∈ newT) (h : sqlEq n.sku_code o.sku_code = true) :
    some n ∈ leftJoinFlat newT o := by
  have hmem : n ∈ newT.filter (fun x => sqlEq x.sku_code o.sku_code) :=
    List.mem_filter.mpr ⟨hn, h⟩
  unfold leftJoinFlat
  cases hf : newT.filter (fun x => sqlEq x.sku_code o.sku_code) with
  | nil => rw [hf] at hmem; exact absurd hmem (List.not_mem_nil n)
  | cons a l =>
    rw [hf] at hmem
    exact List.mem_map_of_mem some hmem

lemma attrRowsFor_subset {oldT newT : List FlatRow} {oldCol newCol : String}
    {o : FlatRow} (ho : o ∈ oldT) {d : AttrDiff}
    (hd : d ∈ attrRowsFor newT oldCol newCol o) :
    d ∈ attrQuery oldT newT oldCol newCol := by
  unfold attrQuery
  induction oldT with
  | nil => exact absurd ho (List.not_mem_nil o)
  | cons x xs ih =>
    rw [attrQueryGo, List.mem_append]
    rcases List.mem_cons.mp ho with h | h
    · left; rw [← h]; exact hd
    · right; exact ih h

lemma mem_classifyRows_mismatches {rs : List JoinedRow} {m : PriceMismatch} :
    m ∈ (classifyRows rs).mismatches ↔
      ∃ r ∈ rs, m ∈ (classifyRow r).mismatches := by
  induction rs with
  | nil => simp [classifyRows]
  | cons r rs ih =>
    simp [classifyRows, PriceResult.append, List.mem_append, ih,
      List.exists_mem_cons_iff]

lemma classifyRow_mismatch {r : JoinedRow} {m : PriceMismatch}
    (h : m ∈ (classifyRow r).mismatches) :
    r.status ≠ "missing_in_new" ∧ r.status ≠ "missing_in_old" ∧
      m = ⟨r.sku_code, r.price_book_id, jsDiffs r⟩ ∧ jsDiffs r ≠ [] := by
  unfold classifyRow at h
  by_cases h1 : r.status = "missing_in_new"
  · rw [if_pos h1] at h; simp at h
  · rw [if_neg h1] at h
    by_cases h2 : r.status = "missing_in_old"
    · rw [if_pos h2] at h; simp at h
    · rw [if_neg h2] at h
      cases hd : jsDiffs r with
      | nil => rw [hd] at h; simp at h
      | cons d ds =>
        rw [hd] at h
        simp at h
        exact ⟨h1, h2, by rw [h], by simp⟩

lemma classifyRow_mismatch_of {r : JoinedRow}
    (h1 : r.status ≠ "missing_in_new") (h2 : r.status ≠ "missing_in_old")
    (hd : jsDiffs r ≠ []) :
    (⟨r.sku_code, r.price_book_id, jsDiffs r⟩ : PriceMismatch)
      ∈ (classifyRow r).mismatches := by
  unfold classifyRow
  rw [if_neg h1, if_neg h2]
  cases hjs : jsDiffs r with
  | nil => exact absurd hjs hd
  | cons d ds => simp

lemma mem_jsDiffs {r : JoinedRow} {d : PriceDiff} :
    d ∈ jsDiffs r ↔
      ∃ t ∈ fieldTriples r, t.2.1 ≠ t.2.2 ∧ d = ⟨t.1, t.2.1, t.2.2⟩ := by
  unfold jsDiffs
  rw [List.mem_filterMap]
  constructor
  · rintro ⟨t, ht, hf⟩
    by_cases hne : t.2.1 = t.2.2
    · simp [hne] at hf
    · rw [if_pos hne] at hf
      exact ⟨t, ht, hne, (Option.some.injEq _ _ ▸ hf).symm⟩
  · rintro ⟨t, ht, hne, hd⟩
    exact ⟨t, ht, by rw [if_pos hne, hd]⟩

lemma mem_queryRowsAll_shape {old new : List PriceRow}
    {ks : List (Option String × Option Int)} {r : JoinedRow}
    (h : r ∈ queryRowsAll old new ks) :
    ∃ o n, wherePasses o n = true ∧ r = mkJoined o n := by
  induction ks with
  | nil => exact absurd h (List.not_mem_nil r)
  | cons k ks ih =>
    rw [queryRowsAll, List.mem_append] at h
    cases h with
    | inl h =>
      unfold queryRowsFor at h
      rw [List.mem_map] at h
      obtain ⟨p, hp, hr⟩ := h
      rw [List.mem_filter] at hp
      exact ⟨p.1, p.2, hp.2, hr.symm⟩
    | inr h => exact ih h

lemma mem_priceQueryRows_shape {old new : List PriceRow}
    {limit : Option Nat} {r : JoinedRow}
    (h : r ∈ priceQueryRows old new limit) :
    ∃ o n, wherePasses o n = true ∧ r = mkJoined o n := by
  unfold priceQueryRows at h
  cases limit with
  | none => exact mem_queryRowsAll_shape h
  | some l =>
    by_cases hl : l = 0 <;> simp only [applyLimit, hl, if_true, if_false] at h
    · exact mem_queryRowsAll_shape h
    · exact mem_queryRowsAll_shape (List.take_subset l _ h)

lemma mkJoined_status_skus {o n : Option PriceRow}
    (h1 : (mkJoined o n).status ≠ "missing_in_new")
    (h2 : (mkJoined o n).status ≠ "missing_in_old") :
    o.bind PriceRow.sku_code ≠ none ∧ n.bind PriceRow.sku_code ≠ none := by
  by_cases ho : o.bind PriceRow.sku_code = none
  · exact absurd (by simp [mkJoined, ho]) h2
  · by_cases hn : n.bind PriceRow.sku_code = none
    · exact absurd (by simp [mkJoined, ho, hn]) h1
    · exact ⟨ho, hn⟩

lemma wherePasses_field_diff {o n : Option PriceRow}
    (hw : wherePasses o n = true)
    (ho : o.bind PriceRow.sku_code ≠ none)
    (hn : n.bind PriceRow.sku_code ≠ none) :
    ∃ t ∈ fieldTriples (mkJoined o n),
      ∃ a b, t.2.1 = some a ∧ t.2.2 = some b ∧ a ≠ b := by
  have hw2 : ((sqlNeq (o.bind PriceRow.mrp) (n.bind PriceRow.mrp)
      || sqlNeq (o.bind PriceRow.rsp) (n.bind PriceRow.rsp))
      || sqlNeq (o.bind PriceRow.spp) (n.bind PriceRow.spp)) = true := by
    unfold wherePasses at hw
    rwa [decide_eq_false ho, decide_eq_false hn, Bool.false_or,
      Bool.false_or] at hw
  simp only [Bool.or_eq_true] at hw2
  rcases hw2 with (hm | hr) | hs
  · obtain ⟨a, b, ha, hb, hab⟩ := sqlNeq_true hm
    exact ⟨("mrp", (mkJoined o n).old_mrp, (mkJoined o n).new_mrp),
      by simp [fieldTriples], a, b, by simp [mkJoined, ha],
      by simp [mkJoined, hb], hab⟩
  · obtain ⟨a, b, ha, hb, hab⟩ := sqlNeq_true hr
    exact ⟨("rsp", (mkJoined o n).old_rsp, (mkJoined o n).new_rsp),
      by simp [fieldTriples], a, b, by simp [mkJoined, ha],
      by simp [mkJoined, hb], hab⟩
  · obtain ⟨a, b, ha, hb, hab⟩ := sqlNeq_true hs
    exact ⟨("spp", (mkJoined o n).old_spp, (mkJoined o n).new_spp),
      by simp [fieldTriples], a, b, by simp [mkJoined, ha],
      by simp [mkJoined, hb], hab⟩

lemma sqlNeq_none_right {α : Type} [DecidableEq α] (x : Option α) :
    sqlNeq x none = false := by
  cases x <;> rfl

lemma sqlNeq_none_left {α : Type} [DecidableEq α] (x : Option α) :
    sqlNeq none x = false := by
  cases x <;> rfl

/-- Claim C2 (amended): over the comparison queries shared by the
attribute, category and common-column comparators (attrQuery; the
common-column query is its oldCol = newCol instance) and over the price
comparator comparePrices:
first, a row whose compared values are both NULL never produces a
mismatch record in any of the four comparators;
second, for entities present on both sides with non-NULL keys, a row
with exactly one NULL value always produces a mismatch record in the
attribute, category and common-column comparators;
third, in the price comparator every mismatch record contains at least
one field whose two values are non-NULL and different, and a field pair
with exactly one NULL yields a difference entry whenever its row is
selected by the query (status exists_in_both) — but, as the
counterexample shows, a row whose only difference is NULL versus
non-NULL is not selected at all, so exactly-one-NULL does not always
produce a price mismatch record. -/
theorem spec_c2_amended
    (fOld fNew : List FlatRow) (oldCol newCol : String) (o n : FlatRow)
    (s : String) (pOld pNew : List PriceRow) (limit : Option Nat)
    (r : JoinedRow)
    (ho : o ∈ fOld) (hn : n ∈ fNew)
    (hos : o.sku_code = some s) (hns : n.sku_code = some s)
    (hone : oneNull (o.val oldCol) (n.val newCol))
    (hr : r ∈ priceQueryRows pOld pNew limit)
    (hst : r.status = "exists_in_both") :
    (∀ d ∈ attrQuery fOld fNew oldCol newCol,
        ¬(d.old_value = none ∧ d.new_value = none))
    ∧ (⟨some s, o.val oldCol, n.val newCol⟩ : AttrDiff)
        ∈ attrQuery fOld fNew oldCol newCol
    ∧ (∀ m ∈ (comparePrices pOld pNew limit).mismatches,
        ∀ d ∈ m.differences,
          ¬(d.old_value = none ∧ d.new_value = none))
    ∧ (∀ m ∈ (comparePrices pOld pNew limit).mismatches,
        ∃ d ∈ m.differences,
          ∃ a b, d.old_value = some a ∧ d.new_value = some b ∧ a ≠ b)
    ∧ (∀ t ∈ fieldTriples r, oneNull t.2.1 t.2.2 →
        ∃ m ∈ (comparePrices pOld pNew limit).mismatches,
          (⟨t.1, t.2.1, t.2.2⟩ : PriceDiff) ∈ m.differences) := by
  refine ⟨?_, ?_, ?_, ?_, ?_⟩
  · intro d hd hcon
    obtain ⟨o2, _, n2, _, hwr, hdef⟩ := mem_attrQuery_shape hd
    apply attrWhere_not_both_none hwr
    rw [hdef] at hcon
    exact hcon
  · apply attrRowsFor_subset ho
    unfold attrRowsFor
    rw [List.mem_map]
    refine ⟨some n, List.mem_filter.mpr ⟨?_, ?_⟩, ?_⟩
    · exact mem_leftJoinFlat hn (by rw [hns, hos]; simp [sqlEq])
    · unfold attrWhere
      rcases hone with ⟨h1, h2⟩ | ⟨h1, h2⟩
      · simp [h1, h2, hos, hns, Option.bind, sqlNeq_none_left]
      · simp [h1, h2, hos, hns, Option.bind, sqlNeq_none_right]
    · rw [hos]
      rfl
  · intro m hm d hd hcon
    unfold comparePrices at hm
    rw [mem_classifyRows_mismatches] at hm
    obtain ⟨r2, hr2, hm2⟩ := hm
    have hc := classifyRow_mismatch hm2
    rw [hc.2.2.1] at hd
    obtain ⟨t, _, hne, hdt⟩ := mem_jsDiffs.mp hd
    rw [hdt] at hcon
    have h1 : t.2.1 = none := hcon.1
    have h2 : t.2.2 = none := hcon.2
    exact hne (h1.trans h2.symm)
  · intro m hm
    unfold comparePrices at hm
    rw [mem_classifyRows_mismatches] at hm
    obtain ⟨r2, hr2, hm2⟩ := hm
    have hc := classifyRow_mismatch hm2
    obtain ⟨o2, n2, hw, hrm⟩ := mem_priceQueryRows_shape hr2
    subst hrm
    have hsk := mkJoined_status_skus hc.1 hc.2.1
    obtain ⟨t, ht, a, b, ha, hb, hab⟩ :=
      wherePasses_field_diff hw hsk.1 hsk.2
    refine ⟨⟨t.1, t.2.1, t.2.2⟩, ?_, a, b, ha, hb, hab⟩
    rw [hc.2.2.1]
    exact mem_jsDiffs.mpr ⟨t, ht, by simp [ha, hb, hab], rfl⟩
  · intro t ht htone
    have hne : t.2.1 ≠ t.2.2 := by
      rcases htone with ⟨h1, h2⟩ | ⟨h1, h2⟩
      · exact fun hcc => h2 (by rw [← hcc, h1])
      · exact fun hcc => h1 (by rw [hcc, h2])
    have hdmem : (⟨t.1, t.2.1, t.2.2⟩ : PriceDiff) ∈ jsDiffs r :=
      mem_jsDiffs.mpr ⟨t, ht, hne, rfl⟩
    have hmm := classifyRow_mismatch_of (r := r)
      (by rw [hst]; decide) (by rw [hst]; decide)
      (List.ne_nil_of_mem hdmem)
    refine ⟨⟨r.sku_code, r.price_book_id, jsDiffs r⟩, ?_, hdmem⟩
    unfold comparePrices
    exact mem_classifyRows_mismatches.mpr ⟨r, hr, hmm⟩

/-- Claim C2 counterexample: the old price row (A, 1) has NULL mrp, the
new price row (A, 1) has mrp 5, all other fields equal, so the entity is
present on both sides with non-NULL keys and the mrp pair has exactly one
NULL.  The claim then demands a mismatch record, but comparePrices
returns no mismatch at all: the query WHERE clause never selects the
row. -/
theorem spec_c2_cex :
    rowKey (⟨some "A", some 1, none, some 1, some 1⟩ : PriceRow)
        = rowKey (⟨some "A", some 1, some 5, some 1, some 1⟩ : PriceRow)
      ∧ (⟨some "A", some 1, none, some 1, some 1⟩ : PriceRow).mrp = none
      ∧ (⟨some "A", some 1, some 5, some 1, some 1⟩ : PriceRow).mrp ≠ none
      ∧ comparePrices [⟨some "A", some 1, none, some 1, some 1⟩]
          [⟨some "A", some 1, some 5, some 1, some 1⟩] none
        = ⟨[], [], []⟩ := by
  decide

/-- Old flat-table row used to witness the amended claim C2. -/
def c2FlatOld : FlatRow :=
  ⟨some "S", fun c => if c = "colour_old" then some "red" else none⟩

/-- New flat-table row used to witness the amended claim C2. -/
def c2FlatNew : FlatRow :=
  ⟨some "S", fun _ => none⟩

/-- Old price table used to witness the amended claim C2. -/
def c2POld : List PriceRow := [⟨some "A", some 1, none, some 2, some 5⟩]

/-- New price table used to witness the amended claim C2. -/
def c2PNew : List PriceRow := [⟨some "A", some 1, some 7, some 3, some 5⟩]

/-- The single query row of the witness price snapshot. -/
def c2Row : JoinedRow :=
  ⟨some "A", some 1, none, some 7, some 2, some 3, some 5, some 5,
    "exists_in_both"⟩

/-- Witness: the amended claim C2 applied to concrete tables, with the
one-NULL attribute pair (colour_old, colour_new) on entity S and a
selected exists_in_both price row carrying a one-NULL mrp pair. -/
theorem spec_c2_witness :
    (∀ d ∈ attrQuery [c2FlatOld] [c2FlatNew] "colour_old" "colour_new",
        ¬(d.old_value = none ∧ d.new_value = none))
    ∧ (⟨some "S", c2FlatOld.val "colour_old", c2FlatNew.val "colour_new"⟩
        : AttrDiff) ∈ attrQuery [c2FlatOld] [c2FlatNew] "colour_old"
          "colour_new"
    ∧ (∀ m ∈ (comparePrices c2POld c2PNew none).mismatches,
        ∀ d ∈ m.differences,
          ¬(d.old_value = none ∧ d.new_value = none))
    ∧ (∀ m ∈ (comparePrices c2POld c2PNew none).mismatches,
        ∃ d ∈ m.differences,
          ∃ a b, d.old_value = some a ∧ d.new_value = some b ∧ a ≠ b)
    ∧ (∀ t ∈ fieldTriples c2Row, oneNull t.2.1 t.2.2 →
        ∃ m ∈ (comparePrices c2POld c2PNew none).mismatches,
          (⟨t.1, t.2.1, t.2.2⟩ : PriceDiff) ∈ m.differences) :=
  spec_c2_amended [c2FlatOld] [c2FlatNew] "colour_old" "colour_new"
    c2FlatOld c2FlatNew "S" c2POld c2PNew none c2Row
    (List.mem_singleton_self c2FlatOld) (List.mem_singleton_self c2FlatNew)
    rfl rfl (Or.inr ⟨by decide, rfl⟩) (by decide) rfl

/-- The steps of one tenant verification run, in source order: connect,
the three column verifications, the SKU existence check, the three value
comparisons, the price column check and the price comparison. -/
inductive VStep
  | connect
  | verifyAttrCols
  | verifyCatCols
  | verifyCommonCols
  | skuCheck
  | cmpAttr
  | cmpCat
  | cmpCommon
  | priceCols
  | cmpPrice
deriving DecidableEq, Repr, Fintype

/-- The orchestrator step order. -/
def vOrder : List VStep :=
  [VStep.connect, VStep.verifyAttrCols, VStep.verifyCatCols,
    VStep.verifyCommonCols, VStep.skuCheck, VStep.cmpAttr, VStep.cmpCat,
    VStep.cmpCommon, VStep.priceCols, VStep.cmpPrice]

/-- Position of a step in the orchestrator order. -/
def vIndex : VStep → Nat
  | VStep.connect => 0
  | VStep.verifyAttrCols => 1
  | VStep.verifyCatCols => 2
  | VStep.verifyCommonCols => 3
  | VStep.skuCheck => 4
  | VStep.cmpAttr => 5
  | VStep.cmpCat => 6
  | VStep.cmpCommon => 7
  | VStep.priceCols => 8
  | VStep.cmpPrice => 9

/-- The results record of verifyDatabase.  Every field starts as null
(none); step outputs are abstracted as the numbers the step oracle
returns, stored unchanged at the commit points of the source. -/
structure VResults where
  missingAttributeColumns : Option Nat
  missingCategoryColumns : Option Nat
  missingCommonColumns : Option Nat
  missingPriceColumns : Option Nat
  skuMismatches : Option Nat
  attributeMismatches : Option Nat
  categoryMismatches : Option Nat
  commonColumnMismatches : Option Nat
  priceMismatches : Option Nat
deriving DecidableEq, Repr

/-- The all-null record created at the start of verifyDatabase. -/
def initVResults : VResults :=
  ⟨none, none, none, none, none, none, none, none, none⟩

/-- Outcome trace of one tenant verification: the returned results, the
steps that completed, the error caught by the surrounding try block (the
source logs it), and whether the finally-block disconnect ran. -/
structure TenantRun where
  results : VResults
  stepsRun : List VStep
  loggedError : Option String
  disconnected : Bool
deriving DecidableEq, Repr

/-- Whether an Except value is a success. -/
def exceptOk {ε α : Type} : Except ε α → Bool
  | Except.ok _ => true
  | Except.error _ => false

/-- The payload a step oracle returns for a step, if it succeeds.  The
Bool component matters only for the priceCols step, where it records
that both missing-column lists were empty (the gate enabling the
comparePrices step). -/
def pay (q : VStep → Except String (Nat × Bool)) (s : VStep) : Option Nat :=
  match q s with
  | Except.ok v => some v.1
  | Except.error _ => none

/-- The body of verifyDatabase after a successful connect, over a step
oracle q standing for the tenant connection: the try block runs the
steps in order, committing the three column-verification outputs
together after step 4 and each later output immediately; the first
error is caught and logged and all remaining steps are abandoned; the
finally block always disconnects; the results record is returned in
every case. -/
def runBody (q : VStep → Except String (Nat × Bool)) : TenantRun :=
  match q VStep.verifyAttrCols with
  | Except.error e => ⟨initVResults, vOrder.take 1, some e, true⟩
  | Except.ok a =>
    match q VStep.verifyCatCols with
    | Except.error e => ⟨initVResults, vOrder.take 2, some e, true⟩
    | Except.ok c =>
      match q VStep.verifyCommonCols with
      | Except.error e => ⟨initVResults, vOrder.take 3, some e, true⟩
      | Except.ok m =>
        let r3 : VResults := { initVResults with
          missingAttributeColumns := some a.1
          missingCategoryColumns := some c.1
          missingCommonColumns := some m.1 }
        match q VStep.skuCheck with
        | Except.error e => ⟨r3, vOrder.take 4, some e, true⟩
        | Except.ok sk =>
          let r4 : VResults := { r3 with skuMismatches := some sk.1 }
          match q VStep.cmpAttr with
          | Except.error e => ⟨r4, vOrder.take 5, some e, true⟩
          | Except.ok av =>
            let r5 : VResults := { r4 with attributeMismatches := some av.1 }
            match q VStep.cmpCat with
            | Except.error e => ⟨r5, vOrder.take 6, some e, true⟩
            | Except.ok cv =>
              let r6 : VResults :=
                { r5 with categoryMismatches := some cv.1 }
              match q VStep.cmpCommon with
              | Except.error e => ⟨r6, vOrder.take 7, some e, true⟩
              | Except.ok cm =>
                let r7 : VResults :=
                  { r6 with commonColumnMismatches := some cm.1 }
                match q VStep.priceCols with
                | Except.error e => ⟨r7, vOrder.take 8, some e, true⟩
                | Except.ok pc =>
                  let r8 : VResults :=
                    { r7 with missingPriceColumns := some pc.1 }
                  if pc.2 then
                    match q VStep.cmpPrice with
                    | Except.error e => ⟨r8, vOrder.take 9, some e, true⟩
                    | Except.ok pm =>
                      ⟨{ r8 with priceMismatches := some pm.1 }, vOrder,
                        none, true⟩
                  else ⟨r8, vOrder.take 9, none, true⟩

/-- verifyDatabase for one tenant: the connect call sits outside the try
block, so a connect failure propagates to the caller; once connected the
body never throws. -/
def runTenant (q : VStep → Except String (Nat × Bool)) :
    Except String TenantRun :=
  match q VStep.connect with
  | Except.error e => Except.error e
  | Except.ok _ => Except.ok (runBody q)

/-- The tenant loop of main: verifyDatabase is awaited for each tenant in
order inside one try block, so the first tenant whose verifyDatabase
throws (a connect failure) aborts the whole batch; the aborting tenant
is returned alongside the runs completed before it. -/
def runBatch (tenants : List String)
    (q : String → VStep → Except String (Nat × Bool)) :
    List (String × TenantRun) × Option String :=
  match tenants with
  | [] => ([], none)
  | t :: ts =>
    match runTenant (q t) with
    | Except.error _ => ([], some t)
    | Except.ok tr =>
      ((t, tr) :: (runBatch ts q).1, (runBatch ts q).2)

lemma exceptOk_exists {ε α : Type} {x : Except ε α}
    (h : exceptOk x = true) : ∃ v, x = Except.ok v := by
  cases x with
  | ok v => exact ⟨v, rfl⟩
  | error e => simp [exceptOk] at h

/-- The results record verifyDatabase has committed when the run dies at
step s: the three column-verification outputs commit together after step
4, every later output commits immediately after its step. -/
def committedAt (q : VStep → Except String (Nat × Bool)) :
    VStep → VResults
  | VStep.connect => initVResults
  | VStep.verifyAttrCols => initVResults
  | VStep.verifyCatCols => initVResults
  | VStep.verifyCommonCols => initVResults
  | VStep.skuCheck =>
    ⟨pay q VStep.verifyAttrCols, pay q VStep.verifyCatCols,
      pay q VStep.verifyCommonCols, none, none, none, none, none, none⟩
  | VStep.cmpAttr =>
    ⟨pay q VStep.verifyAttrCols, pay q VStep.verifyCatCols,
      pay q VStep.verifyCommonCols, none, pay q VStep.skuCheck, none,
      none, none, none⟩
  | VStep.cmpCat =>
    ⟨pay q VStep.verifyAttrCols, pay q VStep.verifyCatCols,
      pay q VStep.verifyCommonCols, none, pay q VStep.skuCheck,
      pay q VStep.cmpAttr, none, none, none⟩
  | VStep.cmpCommon =>
    ⟨pay q VStep.verifyAttrCols, pay q VStep.verifyCatCols,
      pay q VStep.verifyCommonCols, none, pay q VStep.skuCheck,
      pay q VStep.cmpAttr, pay q VStep.cmpCat, none, none⟩
  | VStep.priceCols =>
    ⟨pay q VStep.verifyAttrCols, pay q VStep.verifyCatCols,
      pay q VStep.verifyCommonCols, none, pay q VStep.skuCheck,
      pay q VStep.cmpAttr, pay q VStep.cmpCat, pay q VStep.cmpCommon,
      none⟩
  | VStep.cmpPrice =>
    ⟨pay q VStep.verifyAttrCols, pay q VStep.verifyCatCols,
      pay q VStep.verifyCommonCols, pay q VStep.priceCols,
      pay q VStep.skuCheck, pay q VStep.cmpAttr, pay q VStep.cmpCat,
      pay q VStep.cmpCommon, none⟩

lemma runBody_fail_char (q : VStep → Except String (Nat × Bool))
    (e : String) (s : VStep) (hs : s ≠ VStep.connect)
    (hfail : q s = Except.error e)
    (hok : ∀ s2, s2 ≠ VStep.connect → s2 ≠ s → exceptOk (q s2) = true)
    (hgate : s = VStep.cmpPrice →
      ∃ v, q VStep.priceCols = Except.ok v ∧ v.2 = true) :
    runBody q = ⟨committedAt q s, vOrder.take (vIndex s), some e, true⟩ := by
  cases s with
  | connect => exact absurd rfl hs
  | verifyAttrCols =>
    simp [runBody, hfail, committedAt, pay, vIndex, initVResults]
  | verifyCatCols =>
    obtain ⟨v1, h1⟩ := exceptOk_exists (hok VStep.verifyAttrCols
      (by decide) (by decide))
    simp [runBody, h1, hfail, committedAt, pay, vIndex, initVResults]
  | verifyCommonCols =>
    obtain ⟨v1, h1⟩ := exceptOk_exists (hok VStep.verifyAttrCols
      (by decide) (by decide))
    obtain ⟨v2, h2⟩ := exceptOk_exists (hok VStep.verifyCatCols
      (by decide) (by decide))
    simp [runBody, h1, h2, hfail, committedAt, pay, vIndex, initVResults]
  | skuCheck =>
    obtain ⟨v1, h1⟩ := exceptOk_exists (hok VStep.verifyAttrCols
      (by decide) (by decide))
    obtain ⟨v2, h2⟩ := exceptOk_exists (hok VStep.verifyCatCols
      (by decide) (by decide))
    obtain ⟨v3, h3⟩ := exceptOk_exists (hok VStep.verifyCommonCols
      (by decide) (by decide))
    simp [runBody, h1, h2, h3, hfail, committedAt, pay, vIndex, initVResults]
  | cmpAttr =>
    obtain ⟨v1, h1⟩ := exceptOk_exists (hok VStep.verifyAttrCols
      (by decide) (by decide))
    obtain ⟨v2, h2⟩ := exceptOk_exists (hok VStep.verifyCatCols
      (by decide) (by decide))
    obtain ⟨v3, h3⟩ := exceptOk_exists (hok VStep.verifyCommonCols
      (by decide) (by decide))
    obtain ⟨v4, h4⟩ := exceptOk_exists (hok VStep.skuCheck
      (by decide) (by decide))
    simp [runBody, h1, h2, h3, h4, hfail, committedAt, pay, vIndex, initVResults]
  | cmpCat =>
    obtain ⟨v1, h1⟩ := exceptOk_exists (hok VStep.verifyAttrCols
      (by decide) (by decide))
    obtain ⟨v2, h2⟩ := exceptOk_exists (hok VStep.verifyCatCols
      (by decide) (by decide))
    obtain ⟨v3, h3⟩ := exceptOk_exists (hok VStep.verifyCommonCols
      (by decide) (by decide))
    obtain ⟨v4, h4⟩ := exceptOk_exists (hok VStep.skuCheck
      (by decide) (by decide))
    obtain ⟨v5, h5⟩ := exceptOk_exists (hok VStep.cmpAttr
      (by decide) (by decide))
    simp [runBody, h1, h2, h3, h4, h5, hfail, committedAt, pay, vIndex, initVResults]
  | cmpCommon =>
    obtain ⟨v1, h1⟩ := exceptOk_exists (hok VStep.verifyAttrCols
      (by decide) (by decide))
    obtain ⟨v2, h2⟩ := exceptOk_exists (hok VStep.verifyCatCols
      (by decide) (by decide))
    obtain ⟨v3, h3⟩ := exceptOk_exists (hok VStep.verifyCommonCols
      (by decide) (by decide))
    obtain ⟨v4, h4⟩ := exceptOk_exists (hok VStep.skuCheck
      (by decide) (by decide))
    obtain ⟨v5, h5⟩ := exceptOk_exists (hok VStep.cmpAttr
      (by decide) (by decide))
    obtain ⟨v6, h6⟩ := exceptOk_exists (hok VStep.cmpCat
      (by decide) (by decide))
    simp [runBody, h1, h2, h3, h4, h5, h6, hfail, committedAt, pay, vIndex, initVResults]
  | priceCols =>
    obtain ⟨v1, h1⟩ := exceptOk_exists (hok VStep.verifyAttrCols
      (by decide) (by decide))
    obtain ⟨v2, h2⟩ := exceptOk_exists (hok VStep.verifyCatCols
      (by decide) (by decide))
    obtain ⟨v3, h3⟩ := exceptOk_exists (hok VStep.verifyCommonCols
      (by decide) (by decide))
    obtain ⟨v4, h4⟩ := exceptOk_exists (hok VStep.skuCheck
      (by decide) (by decide))
    obtain ⟨v5, h5⟩ := exceptOk_exists (hok VStep.cmpAttr
      (by decide) (by decide))
    obtain ⟨v6, h6⟩ := exceptOk_exists (hok VStep.cmpCat
      (by decide) (by decide))
    obtain ⟨v7, h7⟩ := exceptOk_exists (hok VStep.cmpCommon
      (by decide) (by decide))
    simp [runBody, h1, h2, h3, h4, h5, h6, h7, hfail, committedAt, pay,
      vIndex, initVResults]
  | cmpPrice =>
    obtain ⟨v1, h1⟩ := exceptOk_exists (hok VStep.verifyAttrCols
      (by decide) (by decide))
    obtain ⟨v2, h2⟩ := exceptOk_exists (hok VStep.verifyCatCols
      (by decide) (by decide))
    obtain ⟨v3, h3⟩ := exceptOk_exists (hok VStep.verifyCommonCols
      (by decide) (by decide))
    obtain ⟨v4, h4⟩ := exceptOk_exists (hok VStep.skuCheck
      (by decide) (by decide))
    obtain ⟨v5, h5⟩ := exceptOk_exists (hok VStep.cmpAttr
      (by decide) (by decide))
    obtain ⟨v6, h6⟩ := exceptOk_exists (hok VStep.cmpCat
      (by decide) (by decide))
    obtain ⟨v7, h7⟩ := exceptOk_exists (hok VStep.cmpCommon
      (by decide) (by decide))
    obtain ⟨v8, h8, hv8⟩ := hgate rfl
    simp [runBody, h1, h2, h3, h4, h5, h6, h7, h8, hv8, hfail,
      committedAt, pay, vIndex, initVResults]

lemma runBody_ok_char (q : VStep → Except String (Nat × Bool))
    (hok : ∀ s2, s2 ≠ VStep.connect → exceptOk (q s2) = true)
    (hgate : ∀ v, q VStep.priceCols = Except.ok v → v.2 = true) :
    runBody q =
      ⟨⟨pay q VStep.verifyAttrCols, pay q VStep.verifyCatCols,
          pay q VStep.verifyCommonCols, pay q VStep.priceCols,
          pay q VStep.skuCheck, pay q VStep.cmpAttr, pay q VStep.cmpCat,
          pay q VStep.cmpCommon, pay q VStep.cmpPrice⟩,
        vOrder, none, true⟩ := by
  obtain ⟨v1, h1⟩ := exceptOk_exists (hok VStep.verifyAttrCols (by decide))
  obtain ⟨v2, h2⟩ := exceptOk_exists (hok VStep.verifyCatCols (by decide))
  obtain ⟨v3, h3⟩ := exceptOk_exists (hok VStep.verifyCommonCols (by decide))
  obtain ⟨v4, h4⟩ := exceptOk_exists (hok VStep.skuCheck (by decide))
  obtain ⟨v5, h5⟩ := exceptOk_exists (hok VStep.cmpAttr (by decide))
  obtain ⟨v6, h6⟩ := exceptOk_exists (hok VStep.cmpCat (by decide))
  obtain ⟨v7, h7⟩ := exceptOk_exists (hok VStep.cmpCommon (by decide))
  obtain ⟨v8, h8⟩ := exceptOk_exists (hok VStep.priceCols (by decide))
  obtain ⟨v9, h9⟩ := exceptOk_exists (hok VStep.cmpPrice (by decide))
  have hv8 : v8.2 = true := hgate v8 h8
  simp [runBody, h1, h2, h3, h4, h5, h6, h7, h8, h9, hv8, pay,
    initVResults]

lemma runBody_gate_closed_char (q : VStep → Except String (Nat × Bool))
    (hok : ∀ s2, s2 ≠ VStep.connect → s2 ≠ VStep.cmpPrice →
      exceptOk (q s2) = true)
    (v : Nat × Bool) (hpc : q VStep.priceCols = Except.ok v)
    (hv : v.2 = false) :
    runBody q =
      ⟨⟨pay q VStep.verifyAttrCols, pay q VStep.verifyCatCols,
          pay q VStep.verifyCommonCols, some v.1, pay q VStep.skuCheck,
          pay q VStep.cmpAttr, pay q VStep.cmpCat, pay q VStep.cmpCommon,
          none⟩,
        vOrder.take 9, none, true⟩ := by
  obtain ⟨v1, h1⟩ := exceptOk_exists (hok VStep.verifyAttrCols
    (by decide) (by decide))
  obtain ⟨v2, h2⟩ := exceptOk_exists (hok VStep.verifyCatCols
    (by decide) (by decide))
  obtain ⟨v3, h3⟩ := exceptOk_exists (hok VStep.verifyCommonCols
    (by decide) (by decide))
  obtain ⟨v4, h4⟩ := exceptOk_exists (hok VStep.skuCheck
    (by decide) (by decide))
  obtain ⟨v5, h5⟩ := exceptOk_exists (hok VStep.cmpAttr
    (by decide) (by decide))
  obtain ⟨v6, h6⟩ := exceptOk_exists (hok VStep.cmpCat
    (by decide) (by decide))
  obtain ⟨v7, h7⟩ := exceptOk_exists (hok VStep.cmpCommon
    (by decide) (by decide))
  simp [runBody, h1, h2, h3, h4, h5, h6, h7, hpc, hv, pay, initVResults]

instance {ε α : Type} [DecidableEq ε] [DecidableEq α] :
    DecidableEq (Except ε α) := fun a b =>
  match a, b with
  | Except.ok x, Except.ok y =>
    if h : x = y then Decidable.isTrue (by rw [h])
    else Decidable.isFalse (fun hc => h (by injection hc))
  | Except.ok _, Except.error _ =>
    Decidable.isFalse (fun hc => Except.noConfusion hc)
  | Except.error _, Except.ok _ =>
    Decidable.isFalse (fun hc => Except.noConfusion hc)
  | Except.error x, Except.error y =>
    if h : x = y then Decidable.isTrue (by rw [h])
    else Decidable.isFalse (fun hc => h (by injection hc))

lemma runBody_disconnected (q : VStep → Except String (Nat × Bool)) :
    (runBody q).disconnected = true := by
  unfold runBody
  repeat' split
  all_goals rfl

lemma runBatch_all_connected (tenants : List String)
    (q : String → VStep → Except String (Nat × Bool))
    (hconn : ∀ t ∈ tenants, exceptOk (q t VStep.connect) = true) :
    (runBatch tenants q).2 = none
      ∧ (runBatch tenants q).1.length = tenants.length
      ∧ ∀ p ∈ (runBatch tenants q).1, p.2.disconnected = true := by
  induction tenants with
  | nil =>
    refine ⟨rfl, rfl, ?_⟩
    intro p hp
    simp [runBatch] at hp
  | cons t ts ih =>
    obtain ⟨v, hv⟩ := exceptOk_exists (hconn t (List.mem_cons_self t ts))
    have ihr := ih (fun x hx => hconn x (List.mem_cons_of_mem t hx))
    refine ⟨?_, ?_, ?_⟩
    · simp [runBatch, runTenant, hv, ihr.1]
    · simp [runBatch, runTenant, hv, ihr.2.1]
    · intro p hp
      simp only [runBatch, runTenant, hv, List.mem_cons] at hp
      rcases hp with hp | hp
      · rw [hp]
        exact runBody_disconnected (q t)
      · exact ihr.2.2 p hp

/-- Claim C3 (amended): once a tenant's connection is established, any
later step's failure is contained: the error is caught and recorded, the
remaining steps for that tenant are abandoned, the finally-block
disconnect still runs, and when every tenant's connect succeeds the
batch processes all tenants to the end.  Contrary to the original claim,
this does NOT extend to connect failures: mysql.createConnection is
awaited outside the try block of verifyDatabase, so a connect error
propagates into the single try block of main, which exits — one tenant's
connect failure aborts the whole batch (see the counterexample). -/
theorem spec_c3_amended :
    (∀ (tenants : List String)
        (q : String → VStep → Except String (Nat × Bool)),
        (∀ t ∈ tenants, exceptOk (q t VStep.connect) = true) →
          (runBatch tenants q).2 = none
          ∧ (runBatch tenants q).1.length = tenants.length
          ∧ ∀ p ∈ (runBatch tenants q).1, p.2.disconnected = true)
    ∧ (∀ (q : VStep → Except String (Nat × Bool)) (e : String) (s : VStep),
        s ≠ VStep.connect →
        exceptOk (q VStep.connect) = true →
        q s = Except.error e →
        (∀ s2, s2 ≠ VStep.connect → s2 ≠ s → exceptOk (q s2) = true) →
        (s = VStep.cmpPrice →
          ∃ v, q VStep.priceCols = Except.ok v ∧ v.2 = true) →
        runTenant q = Except.ok
          ⟨committedAt q s, vOrder.take (vIndex s), some e, true⟩) := by
  constructor
  · exact runBatch_all_connected
  · intro q e s hs hc hfail hok hgate
    obtain ⟨v, hv⟩ := exceptOk_exists hc
    simp [runTenant, hv, runBody_fail_char q e s hs hfail hok hgate]

/-- Oracle of the C3 counterexample: tenant t1 refuses the connection,
tenant t2 succeeds at everything. -/
def c3CexOracle (t : String) (_s : VStep) : Except String (Nat × Bool) :=
  if t = "t1" then Except.error "connect refused" else Except.ok (0, true)

/-- Claim C3 counterexample: tenant t1's connect fails while tenant t2
would verify cleanly, yet the batch aborts at t1 — no tenant run is
completed, t1 gets no disconnect and t2 is never visited, contradicting
the claim for the connecting step. -/
theorem spec_c3_cex :
    runBatch ["t1", "t2"] c3CexOracle = ([], some "t1")
      ∧ exceptOk (runTenant (c3CexOracle "t2")) = true := by
  decide

/-- All-success batch oracle for the C3 witness. -/
def c3WitOracle (_t : String) (_s : VStep) : Except String (Nat × Bool) :=
  Except.ok (2, true)

/-- Single-tenant oracle for the C3 witness whose cmpCat step throws. -/
def c3WitFailOracle (s : VStep) : Except String (Nat × Bool) :=
  if s = VStep.cmpCat then Except.error "boom" else Except.ok (1, true)

/-- Witness: the amended claim C3 applied to a two-tenant batch that
fully connects and to a tenant whose category comparison step fails. -/
theorem spec_c3_witness :
    ((runBatch ["w1", "w2"] c3WitOracle).2 = none
      ∧ (runBatch ["w1", "w2"] c3WitOracle).1.length
          = (["w1", "w2"] : List String).length
      ∧ ∀ p ∈ (runBatch ["w1", "w2"] c3WitOracle).1,
          p.2.disconnected = true)
    ∧ runTenant c3WitFailOracle = Except.ok
        ⟨committedAt c3WitFailOracle VStep.cmpCat,
          vOrder.take (vIndex VStep.cmpCat), some "boom", true⟩ :=
  ⟨spec_c3_amended.1 ["w1", "w2"] c3WitOracle (by decide),
    spec_c3_amended.2 c3WitFailOracle "boom" VStep.cmpCat (by decide)
      (by decide) rfl (by decide) (fun h => absurd h (by decide))⟩

/-- Claim C10 (amended): once the connection is established,
verifyDatabase never throws — it returns the results record in every
case; on a fully successful run every field holds its step's output;
when a step fails mid-run the fields not yet committed stay null and the
committed ones are preserved.  Contrary to the original claim, a
completed step's output is not always stored: the three
column-verification outputs (steps 2 to 4) commit together only after
step 4, so a failure in steps 3 or 4 loses the outputs of the already
completed column verifications (see the counterexample); from step 5 on
each output commits immediately. -/
theorem spec_c10_amended :
    (∀ (q : VStep → Except String (Nat × Bool)) (x : Nat × Bool),
        q VStep.connect = Except.ok x →
          runTenant q = Except.ok (runBody q))
    ∧ (∀ (q : VStep → Except String (Nat × Bool)) (e : String) (s : VStep),
        s ≠ VStep.connect →
        q s = Except.error e →
        (∀ s2, s2 ≠ VStep.connect → s2 ≠ s → exceptOk (q s2) = true) →
        (s = VStep.cmpPrice →
          ∃ v, q VStep.priceCols = Except.ok v ∧ v.2 = true) →
        runBody q = ⟨committedAt q s, vOrder.take (vIndex s), some e,
          true⟩)
    ∧ (∀ (q : VStep → Except String (Nat × Bool)),
        (∀ s2, s2 ≠ VStep.connect → exceptOk (q s2) = true) →
        (∀ v, q VStep.priceCols = Except.ok v → v.2 = true) →
        runBody q =
          ⟨⟨pay q VStep.verifyAttrCols, pay q VStep.verifyCatCols,
              pay q VStep.verifyCommonCols, pay q VStep.priceCols,
              pay q VStep.skuCheck, pay q VStep.cmpAttr,
              pay q VStep.cmpCat, pay q VStep.cmpCommon,
              pay q VStep.cmpPrice⟩,
            vOrder, none, true⟩) := by
  refine ⟨?_, ?_, ?_⟩
  · intro q x hx
    simp [runTenant, hx]
  · exact runBody_fail_char
  · exact runBody_ok_char

/-- Oracle of the C10 counterexample: the category column verification
throws, everything else succeeds. -/
def c10CexOracle (s : VStep) : Except String (Nat × Bool) :=
  if s = VStep.verifyCatCols then Except.error "cat boom"
  else Except.ok (7, true)

/-- Claim C10 counterexample: step 2 (verifyAttributeColumns) completes
— it is in the steps run — but because step 3 throws before the shared
commit point of steps 2 to 4, the returned record still has
missingAttributeColumns null: a completed step's output was not
stored. -/
theorem spec_c10_cex :
    runTenant c10CexOracle = Except.ok ⟨initVResults,
        [VStep.connect, VStep.verifyAttrCols], some "cat boom", true⟩
      ∧ VStep.verifyAttrCols ∈ [VStep.connect, VStep.verifyAttrCols]
      ∧ initVResults.missingAttributeColumns = none := by
  decide

/-- All-success oracle for the C10 witness. -/
def c10WitOracle (_s : VStep) : Except String (Nat × Bool) :=
  Except.ok (3, true)

/-- Oracle for the C10 witness whose common-column comparison fails. -/
def c10WitFailOracle (s : VStep) : Except String (Nat × Bool) :=
  if s = VStep.cmpCommon then Except.error "mid" else Except.ok (4, true)

/-- Witness: the amended claim C10 applied to an all-success oracle and
to an oracle failing at the common-column comparison. -/
theorem spec_c10_witness :
    runTenant c10WitOracle = Except.ok (runBody c10WitOracle)
    ∧ runBody c10WitFailOracle =
        ⟨committedAt c10WitFailOracle VStep.cmpCommon,
          vOrder.take (vIndex VStep.cmpCommon), some "mid", true⟩
    ∧ runBody c10WitOracle =
        ⟨⟨pay c10WitOracle VStep.verifyAttrCols,
            pay c10WitOracle VStep.verifyCatCols,
            pay c10WitOracle VStep.verifyCommonCols,
            pay c10WitOracle VStep.priceCols,
            pay c10WitOracle VStep.skuCheck,
            pay c10WitOracle VStep.cmpAttr, pay c10WitOracle VStep.cmpCat,
            pay c10WitOracle VStep.cmpCommon,
            pay c10WitOracle VStep.cmpPrice⟩,
          vOrder, none, true⟩ :=
  ⟨spec_c10_amended.1 c10WitOracle (3, true) rfl,
    spec_c10_amended.2.1 c10WitFailOracle "mid" VStep.cmpCommon
      (by decide) rfl (by decide) (fun h => absurd h (by decide)),
    spec_c10_amended.2.2 c10WitOracle (by decide)
      (fun v hv => by rw [← Except.ok.inj hv])⟩

/-- Whitespace characters trimmed from mapping lines (the common subset
of the characters JS trim removes). -/
def charIsWhite (c : Char) : Bool :=
  c = ' ' || c = '\t' || c = '\n' || c = '\r'

/-- JS String.prototype.trim over the character list of a string. -/
def trimChars (l : List Char) : List Char :=
  ((l.dropWhile charIsWhite).reverse.dropWhile charIsWhite).reverse

/-- JS String.prototype.trim. -/
def jsTrim (s : String) : String := String.mk (trimChars s.data)

/-- Split a character list at every occurrence of one separator char. -/
def splitSepChars (sep : Char) : List Char → List Char → List (List Char)
  | [], acc => [acc.reverse]
  | c :: rest, acc =>
    if c = sep then acc.reverse :: splitSepChars sep rest []
    else splitSepChars sep rest (c :: acc)

/-- JS content.split of the newline character. -/
def splitNl (s : String) : List String :=
  (splitSepChars '\n' s.data []).map String.mk

/-- Split a character list at every occurrence of the two-character
arrow separator used in mapping files. -/
def splitArrowChars : List Char → List Char → List (List Char)
  | [], acc => [acc.reverse]
  | '-' :: '>' :: rest, acc => acc.reverse :: splitArrowChars rest []
  | c :: rest, acc => splitArrowChars rest (c :: acc)

/-- JS line.split of the arrow separator. -/
def splitArrow (s : String) : List String :=
  (splitArrowChars s.data []).map String.mk

/-- JS String.(lowerStr prototype)Case (ASCII case folding). -/
def lowerStr (s : String) : String := String.mk (s.data.map Char.toLower)

/-- The configured ignore list IGNORED_COLUMNS.oldTable. -/
def ignoredOldColumns : List String :=
  ["brand_name", "department_name", "id", "vendor_sku_detail_id", "sku"]

/-- JS Map.set on an association list: an existing key keeps its
position and receives the new value, a new key is appended. -/
def mapSet {β : Type} (m : List (String × β)) (k : String) (v : β) :
    List (String × β) :=
  if m.any (fun p => p.1 = k) then
    m.map (fun p => if p.1 = k then (k, v) else p)
  else m ++ [(k, v)]

/-- loadAttributeMappings / loadCategoryMappings over the mapping file
text: split into lines, skip blank lines, split each remaining line on
the two-character arrow separator and trim the pieces; piece 0 becomes
the new column and piece 1 the old column — a line without the
separator has no piece 1, so the stored old side is none (JS
undefined); entries land in a JS Map (duplicate new columns
overwrite). -/
def loadAttributeMappings (content : String) :
    List (String × Option String) :=
  (splitNl content).foldl
    (fun m line =>
      if jsTrim line ≠ "" then
        mapSet m (((splitArrow line).map jsTrim).headD "")
          ((splitArrow line).map jsTrim)[1]?
      else m) []

/-- One entry of the missing-column diagnostics of
verifyAttributeColumns: the mapping display string and the column that
failed to resolve. -/
structure MissingMapEntry where
  mapping : String
  missingColumn : String
deriving DecidableEq, Repr

/-- The two missing-column lists, keyed by the side that failed. -/
structure MissingColsReport where
  oldTable : List MissingMapEntry
  newTable : List MissingMapEntry
deriving DecidableEq, Repr

/-- Result of verifyAttributeColumns. -/
structure ResolveOut where
  validMappings : List (String × String)
  missingColumns : MissingColsReport
deriving DecidableEq, Repr

/-- The per-mapping loop of verifyAttributeColumns: skip a mapping whose
old column is in the ignore list (an undefined old side is never in the
list); then calling toLowerCase on an undefined old side throws a
TypeError; otherwise check case-insensitive membership in both schemas,
adding the mapping to the valid Map when both sides resolve and
recording each failing side in the report otherwise. -/
def verifyAttrGo (oldNames newNames : List String) (acc : ResolveOut) :
    List (String × Option String) → Except String ResolveOut
  | [] => Except.ok acc
  | (newCol, oldCol) :: rest =>
    if (match oldCol with
        | some o => ignoredOldColumns.contains o
        | none => false) then
      verifyAttrGo oldNames newNames acc rest
    else
      match oldCol with
      | none => Except.error "TypeError: toLowerCase of undefined"
      | some o =>
        let isOldColPresent := oldNames.contains (lowerStr o)
        let isNewColPresent := newNames.contains (lowerStr newCol)
        if isOldColPresent && isNewColPresent then
          verifyAttrGo oldNames newNames
            { acc with validMappings := mapSet acc.validMappings newCol o }
            rest
        else
          verifyAttrGo oldNames newNames
            { acc with missingColumns :=
                ⟨acc.missingColumns.oldTable ++
                    (if isOldColPresent then []
                      else [⟨newCol ++ " -> " ++ o, o⟩]),
                  acc.missingColumns.newTable ++
                    (if isNewColPresent then []
                      else [⟨newCol ++ " -> " ++ o, newCol⟩])⟩ }
            rest

/-- verifyAttributeColumns (also used for the category mappings): the
schema columns come from getTableColumns, which lower-cases them; the
resolver then compares lower-cased names on both sides, so membership is
case-insensitive. -/
def verifyAttributeColumns (ms : List (String × Option String))
    (oldTableCols newTableCols : List String) : Except String ResolveOut :=
  verifyAttrGo (oldTableCols.map lowerStr)
    (newTableCols.map lowerStr) ⟨[], ⟨[], []⟩⟩ ms

/-- The fixed desired common-column list of verifyCommonColumns. -/
def desiredCommonColumns : List String :=
  ["name", "short_description", "long_description", "purchase_uom_name",
    "selling_uom_name", "uom_factor", "tax_type", "is_active",
    "ref_item_code", "sku_code", "ref_sku_code", "sku", "purchase_uom_id",
    "purchase_uom_type", "selling_uom_id", "selling_uom_name",
    "selling_uom_type"]

/-- The missing common-column lists, bare column names per side. -/
structure MissingCommonReport where
  oldTable : List String
  newTable : List String
deriving DecidableEq, Repr

/-- Result of verifyCommonColumns. -/
structure CommonColsOut where
  availableColumns : List String
  missingColumns : MissingCommonReport
deriving DecidableEq, Repr

/-- The per-column loop of verifyCommonColumns: skip ignored names, then
check case-insensitive membership on both sides. -/
def verifyCommonGo (oldNames newNames : List String) (acc : CommonColsOut) :
    List String → CommonColsOut
  | [] => acc
  | column :: rest =>
    if ignoredOldColumns.contains column then
      verifyCommonGo oldNames newNames acc rest
    else
      let isOldColPresent := oldNames.contains (lowerStr column)
      let isNewColPresent := newNames.contains (lowerStr column)
      if isOldColPresent && isNewColPresent then
        verifyCommonGo oldNames newNames
          { acc with availableColumns := acc.availableColumns ++ [column] }
          rest
      else
        verifyCommonGo oldNames newNames
          { acc with missingColumns :=
              ⟨acc.missingColumns.oldTable ++
                  (if isOldColPresent then [] else [column]),
                acc.missingColumns.newTable ++
                  (if isNewColPresent then [] else [column])⟩ }
          rest

/-- verifyCommonColumns over the introspected (lower-cased) schemas. -/
def verifyCommonColumns (oldTableCols newTableCols : List String) :
    CommonColsOut :=
  verifyCommonGo (oldTableCols.map lowerStr)
    (newTableCols.map lowerStr) ⟨[], ⟨[], []⟩⟩ desiredCommonColumns

/-- One element of the mismatches array of compareAttributeValues and
compareCategoryValues. -/
structure AttrMismatch where
  old_column : String
  new_column : String
  differences : List AttrDiff
deriving DecidableEq, Repr

/-- The per-mapping loop of compareAttributeValues over a connection
oracle q giving each per-mapping query outcome: a falsy (empty or
undefined) column name is skipped with a warning; a query failure for
one mapping is caught, logged as a warning and skipped; a non-empty
result set is pushed as a mismatch entry. -/
def compareAttributeValues
    (q : String → String → Except String (List AttrDiff)) :
    List (String × Option String) → List AttrMismatch
  | [] => []
  | (newCol, oldCol) :: rest =>
    if newCol = "" then compareAttributeValues q rest
    else
      match oldCol with
      | none => compareAttributeValues q rest
      | some o =>
        if o = "" then compareAttributeValues q rest
        else
          match q newCol o with
          | Except.error _ => compareAttributeValues q rest
          | Except.ok results =>
            if results.isEmpty then compareAttributeValues q rest
            else ⟨o, newCol, results⟩ :: compareAttributeValues q rest

/-- One element of the mismatches array of compareCommonColumns. -/
structure CommonMismatch where
  column : String
  differences : List AttrDiff
deriving DecidableEq, Repr

/-- The per-column loop of compareCommonColumns over a connection oracle
q: undefined columns skipped, per-column query failures caught and
skipped, non-empty result sets pushed. -/
def compareCommonColumns (q : String → Except String (List AttrDiff)) :
    List String → List CommonMismatch
  | [] => []
  | column :: rest =>
    if column = "" then compareCommonColumns q rest
    else
      match q column with
      | Except.error _ => compareCommonColumns q rest
      | Except.ok results =>
        if results.isEmpty then compareCommonColumns q rest
        else ⟨column, results⟩ :: compareCommonColumns q rest

/-- The five columns both price tables must contain. -/
def requiredPriceColumns : List String :=
  ["sku_code", "price_book_id", "mrp", "rsp", "spp"]

/-- The missing price-column lists of verifyPriceColumns. -/
structure PriceColsReport where
  oldTable : List String
  newTable : List String
deriving DecidableEq, Repr

/-- verifyPriceColumns: filter the required columns down to those not
present (case-insensitively) in each side's introspected schema. -/
def verifyPriceColumns (oldCols newCols : List String) : PriceColsReport :=
  ⟨requiredPriceColumns.filter
      (fun col => !((oldCols.map lowerStr).contains (lowerStr col))),
    requiredPriceColumns.filter
      (fun col => !((newCols.map lowerStr).contains (lowerStr col)))⟩

lemma mapSet_mem {β : Type} {m : List (String × β)} {k : String} {v : β}
    {x : String × β} (h : x ∈ mapSet m k v) : x = (k, v) ∨ x ∈ m := by
  unfold mapSet at h
  by_cases hk : m.any (fun p => p.1 = k)
  · rw [if_pos hk, List.mem_map] at h
    obtain ⟨p, hp, hx⟩ := h
    by_cases hpk : p.1 = k
    · left; rw [← hx, if_pos hpk]
    · right; rw [← hx, if_neg hpk]; exact hp
  · rw [if_neg hk, List.mem_append] at h
    rcases h with h | h
    · right; exact h
    · left; simpa using h

lemma mapSet_append {β : Type} {m : List (String × β)} {k : String}
    {v : β} (h : ∀ p ∈ m, p.1 ≠ k) : mapSet m k v = m ++ [(k, v)] := by
  unfold mapSet
  rw [if_neg]
  simp only [List.any_eq_true, decide_eq_true_eq, not_exists]
  intro p hp
  exact h p hp.1 hp.2

/-- Properties of every mapping in the valid-mapping list of a successful
resolver run: it was already in the accumulator, or it came from the
input, is not ignored, and both sides resolved case-insensitively. -/
lemma verifyAttrGo_valid (oldNames newNames : List String) :
    ∀ (ms : List (String × Option String)) (acc : ResolveOut)
      (r : ResolveOut),
      verifyAttrGo oldNames newNames acc ms = Except.ok r →
      ∀ p ∈ r.validMappings,
        p ∈ acc.validMappings ∨
          ((p.1, some p.2) ∈ ms
            ∧ ignoredOldColumns.contains p.2 = false
            ∧ oldNames.contains (lowerStr p.2) = true
            ∧ newNames.contains (lowerStr p.1) = true) := by
  intro ms
  induction ms with
  | nil =>
    intro acc r h p hp
    left
    cases h
    exact hp
  | cons hd rest ih =>
    intro acc r h p hp
    obtain ⟨newCol, oldCol⟩ := hd
    cases oldCol with
    | none =>
      simp only [verifyAttrGo] at h
      simp at h
    | some o =>
      simp only [verifyAttrGo] at h
      by_cases hig : ignoredOldColumns.contains o = true
      · rw [if_pos hig] at h
        rcases ih acc r h p hp with h2 | h2
        · left; exact h2
        · right; exact ⟨List.mem_cons_of_mem _ h2.1, h2.2⟩
      · rw [if_neg hig] at h
        by_cases hboth :
            (oldNames.contains (lowerStr o) && newNames.contains (lowerStr newCol))
              = true
        · rw [if_pos hboth] at h
          rcases ih _ r h p hp with h2 | h2
          · simp only at h2
            rcases mapSet_mem h2 with h3 | h3
            · right
              rw [h3]
              rw [Bool.and_eq_true] at hboth
              refine ⟨List.mem_cons_self _ _, ?_, ?_, ?_⟩
              · simpa using hig
              · exact hboth.1
              · exact hboth.2
            · left; exact h3
          · right; exact ⟨List.mem_cons_of_mem _ h2.1, h2.2⟩
        · rw [if_neg hboth] at h
          rcases ih _ r h p hp with h2 | h2
          · left; exact h2
          · right; exact ⟨List.mem_cons_of_mem _ h2.1, h2.2⟩

lemma verifyAttrGo_ok (oldNames newNames : List String) :
    ∀ (ms : List (String × Option String)) (acc : ResolveOut),
      (∀ p ∈ ms, p.2 ≠ none) →
      exceptOk (verifyAttrGo oldNames newNames acc ms) = true := by
  intro ms
  induction ms with
  | nil => intro acc _; rfl
  | cons hd rest ih =>
    intro acc hno
    obtain ⟨newCol, oldCol⟩ := hd
    cases oldCol with
    | none =>
      exact absurd rfl (hno (newCol, none) (List.mem_cons_self _ _))
    | some o =>
      have hrest : ∀ p ∈ rest, p.2 ≠ none :=
        fun p hp => hno p (List.mem_cons_of_mem _ hp)
      simp only [verifyAttrGo]
      by_cases hig : ignoredOldColumns.contains o = true
      · rw [if_pos hig]; exact ih acc hrest
      · rw [if_neg hig]
        by_cases hboth :
            (oldNames.contains (lowerStr o) && newNames.contains (lowerStr newCol))
              = true
        · rw [if_pos hboth]; exact ih _ hrest
        · rw [if_neg hboth]; exact ih _ hrest

lemma verifyAttrGo_err (oldNames newNames : List String) :
    ∀ (ms : List (String × Option String)) (acc : ResolveOut),
      (∃ p ∈ ms, p.2 = none) →
      exceptOk (verifyAttrGo oldNames newNames acc ms) = false := by
  intro ms
  induction ms with
  | nil =>
    intro acc h
    obtain ⟨p, hp, _⟩ := h
    exact absurd hp (List.not_mem_nil p)
  | cons hd rest ih =>
    intro acc h
    obtain ⟨newCol, oldCol⟩ := hd
    cases oldCol with
    | none => simp [verifyAttrGo, exceptOk]
    | some o =>
      have hrest : ∃ p ∈ rest, p.2 = none := by
        obtain ⟨p, hp, hp2⟩ := h
        rcases List.mem_cons.mp hp with he | he
        · rw [he] at hp2; exact absurd hp2 (by simp)
        · exact ⟨p, he, hp2⟩
      simp only [verifyAttrGo]
      by_cases hig : ignoredOldColumns.contains o = true
      · rw [if_pos hig]; exact ih acc hrest
      · rw [if_neg hig]
        by_cases hboth :
            (oldNames.contains (lowerStr o) && newNames.contains (lowerStr newCol))
              = true
        · rw [if_pos hboth]; exact ih _ hrest
        · rw [if_neg hboth]; exact ih _ hrest

lemma verifyAttrGo_missing_mono (oldNames newNames : List String) :
    ∀ (ms : List (String × Option String)) (acc r : ResolveOut),
      verifyAttrGo oldNames newNames acc ms = Except.ok r →
      (∀ e ∈ acc.missingColumns.oldTable, e ∈ r.missingColumns.oldTable)
        ∧ (∀ e ∈ acc.missingColumns.newTable,
            e ∈ r.missingColumns.newTable) := by
  intro ms
  induction ms with
  | nil =>
    intro acc r h
    cases h
    exact ⟨fun e he => he, fun e he => he⟩
  | cons hd rest ih =>
    intro acc r h
    obtain ⟨newCol, oldCol⟩ := hd
    cases oldCol with
    | none => simp only [verifyAttrGo] at h; simp at h
    | some o =>
      simp only [verifyAttrGo] at h
      by_cases hig : ignoredOldColumns.contains o = true
      · rw [if_pos hig] at h; exact ih acc r h
      · rw [if_neg hig] at h
        by_cases hboth :
            (oldNames.contains (lowerStr o) && newNames.contains (lowerStr newCol))
              = true
        · rw [if_pos hboth] at h
          exact ih ⟨mapSet acc.validMappings newCol o, acc.missingColumns⟩
            r h
        · rw [if_neg hboth] at h
          have h2 := ih _ r h
          exact ⟨fun e he => h2.1 e (List.mem_append_left _ he),
            fun e he => h2.2 e (List.mem_append_left _ he)⟩

lemma verifyAttrGo_missing_complete (oldNames newNames : List String) :
    ∀ (ms : List (String × Option String)) (acc r : ResolveOut),
      verifyAttrGo oldNames newNames acc ms = Except.ok r →
      ∀ n o, (n, some o) ∈ ms → ignoredOldColumns.contains o = false →
        (oldNames.contains (lowerStr o) = false →
          (⟨n ++ " -> " ++ o, o⟩ : MissingMapEntry)
            ∈ r.missingColumns.oldTable)
        ∧ (newNames.contains (lowerStr n) = false →
          (⟨n ++ " -> " ++ o, n⟩ : MissingMapEntry)
            ∈ r.missingColumns.newTable) := by
  intro ms
  induction ms with
  | nil =>
    intro acc r h n o hmem
    exact absurd hmem (List.not_mem_nil _)
  | cons hd rest ih =>
    intro acc r h n o hmem hnig
    obtain ⟨newCol, oldCol⟩ := hd
    cases oldCol with
    | none => simp only [verifyAttrGo] at h; simp at h
    | some o1 =>
      simp only [verifyAttrGo] at h
      rcases List.mem_cons.mp hmem with he | he
      · have hn : newCol = n := (Prod.mk.injEq _ _ _ _ ▸ he.symm).1
        have ho : o1 = o := by
          have := (Prod.mk.injEq _ _ _ _ ▸ he.symm).2
          exact Option.some.inj this
        rw [hn, ho] at h
        rw [if_neg (by rw [hnig]; exact Bool.false_ne_true)] at h
        by_cases hboth :
            (oldNames.contains (lowerStr o) && newNames.contains (lowerStr n))
              = true
        · rw [if_pos hboth] at h
          rw [Bool.and_eq_true] at hboth
          constructor
          · intro hcon; rw [hboth.1] at hcon; exact absurd hcon (by simp)
          · intro hcon; rw [hboth.2] at hcon; exact absurd hcon (by simp)
        · rw [if_neg hboth] at h
          have hmono := verifyAttrGo_missing_mono oldNames newNames rest _
            r h
          constructor
          · intro hcold
            apply hmono.1
            rw [hcold]
            simp
          · intro hcnew
            apply hmono.2
            rw [hcnew]
            simp
      · by_cases hig : ignoredOldColumns.contains o1 = true
        · rw [if_pos hig] at h
          exact ih acc r h n o he hnig
        · rw [if_neg hig] at h
          by_cases hboth :
              (oldNames.contains (lowerStr o1)
                && newNames.contains (lowerStr newCol)) = true
          · rw [if_pos hboth] at h
            exact ih _ r h n o he hnig
          · rw [if_neg hboth] at h
            exact ih _ r h n o he hnig

lemma verifyAttrGo_missing_src (oldNames newNames : List String) :
    ∀ (ms : List (String × Option String)) (acc r : ResolveOut),
      verifyAttrGo oldNames newNames acc ms = Except.ok r →
      (∀ e ∈ r.missingColumns.oldTable,
        e ∈ acc.missingColumns.oldTable ∨
          ∃ n2 o2, (n2, some o2) ∈ ms
            ∧ ignoredOldColumns.contains o2 = false
            ∧ e.missingColumn = o2)
      ∧ (∀ e ∈ r.missingColumns.newTable,
        e ∈ acc.missingColumns.newTable ∨
          ∃ n2 o2, (n2, some o2) ∈ ms
            ∧ ignoredOldColumns.contains o2 = false
            ∧ e.missingColumn = n2) := by
  intro ms
  induction ms with
  | nil =>
    intro acc r h
    cases h
    exact ⟨fun e he => Or.inl he, fun e he => Or.inl he⟩
  | cons hd rest ih =>
    intro acc r h
    obtain ⟨newCol, oldCol⟩ := hd
    cases oldCol with
    | none => simp only [verifyAttrGo] at h; simp at h
    | some o =>
      simp only [verifyAttrGo] at h
      by_cases hig : ignoredOldColumns.contains o = true
      · rw [if_pos hig] at h
        have h2 := ih acc r h
        constructor
        · intro e he
          rcases h2.1 e he with h3 | ⟨n2, o2, h4, h5, h6⟩
          · exact Or.inl h3
          · exact Or.inr ⟨n2, o2, List.mem_cons_of_mem _ h4, h5, h6⟩
        · intro e he
          rcases h2.2 e he with h3 | ⟨n2, o2, h4, h5, h6⟩
          · exact Or.inl h3
          · exact Or.inr ⟨n2, o2, List.mem_cons_of_mem _ h4, h5, h6⟩
      · rw [if_neg hig] at h
        by_cases hboth :
            (oldNames.contains (lowerStr o) && newNames.contains (lowerStr newCol))
              = true
        · rw [if_pos hboth] at h
          have h2 := ih ⟨mapSet acc.validMappings newCol o,
            acc.missingColumns⟩ r h
          constructor
          · intro e he
            rcases h2.1 e he with h3 | ⟨n2, o2, h4, h5, h6⟩
            · exact Or.inl h3
            · exact Or.inr ⟨n2, o2, List.mem_cons_of_mem _ h4, h5, h6⟩
          · intro e he
            rcases h2.2 e he with h3 | ⟨n2, o2, h4, h5, h6⟩
            · exact Or.inl h3
            · exact Or.inr ⟨n2, o2, List.mem_cons_of_mem _ h4, h5, h6⟩
        · rw [if_neg hboth] at h
          have h2 := ih _ r h
          have hnig : ignoredOldColumns.contains o = false := by
            rw [Bool.not_eq_true] at hig
            exact hig
          constructor
          · intro e he
            rcases h2.1 e he with h3 | ⟨n2, o2, h4, h5, h6⟩
            · simp only [List.mem_append] at h3
              rcases h3 with h3 | h3
              · exact Or.inl h3
              · refine Or.inr ⟨newCol, o, List.mem_cons_self _ _, hnig, ?_⟩
                by_cases hcold : oldNames.contains (lowerStr o) = true
                · rw [if_pos hcold] at h3
                  exact absurd h3 (List.not_mem_nil e)
                · rw [if_neg hcold] at h3
                  rw [List.mem_singleton] at h3
                  rw [h3]
            · exact Or.inr ⟨n2, o2, List.mem_cons_of_mem _ h4, h5, h6⟩
          · intro e he
            rcases h2.2 e he with h3 | ⟨n2, o2, h4, h5, h6⟩
            · simp only [List.mem_append] at h3
              rcases h3 with h3 | h3
              · exact Or.inl h3
              · refine Or.inr ⟨newCol, o, List.mem_cons_self _ _, hnig, ?_⟩
                by_cases hcnew : newNames.contains (lowerStr newCol) = true
                · rw [if_pos hcnew] at h3
                  exact absurd h3 (List.not_mem_nil e)
                · rw [if_neg hcnew] at h3
                  rw [List.mem_singleton] at h3
                  rw [h3]
            · exact Or.inr ⟨n2, o2, List.mem_cons_of_mem _ h4, h5, h6⟩

lemma verifyAttrGo_order (oldNames newNames : List String) :
    ∀ (ms : List (String × Option String)) (acc r : ResolveOut),
      verifyAttrGo oldNames newNames acc ms = Except.ok r →
      ((ms.map Prod.fst).Nodup) →
      (∀ p ∈ acc.validMappings, p.1 ∉ ms.map Prod.fst) →
      ∃ t, r.validMappings = acc.validMappings ++ t
        ∧ List.Sublist (t.map (fun p => (p.1, some p.2))) ms := by
  intro ms
  induction ms with
  | nil =>
    intro acc r h _ _
    cases h
    exact ⟨[], by simp, List.Sublist.refl []⟩
  | cons hd rest ih =>
    intro acc r h hnd hdisj
    obtain ⟨newCol, oldCol⟩ := hd
    rw [List.map_cons, List.nodup_cons] at hnd
    cases oldCol with
    | none => simp only [verifyAttrGo] at h; simp at h
    | some o =>
      simp only [verifyAttrGo] at h
      by_cases hig : ignoredOldColumns.contains o = true
      · rw [if_pos hig] at h
        obtain ⟨t, ht, hs⟩ := ih acc r h hnd.2
          (fun p hp => fun hc =>
            hdisj p hp (List.mem_cons_of_mem _ hc))
        exact ⟨t, ht, hs.cons _⟩
      · rw [if_neg hig] at h
        by_cases hboth :
            (oldNames.contains (lowerStr o) && newNames.contains (lowerStr newCol))
              = true
        · rw [if_pos hboth] at h
          have hset : mapSet acc.validMappings newCol o
              = acc.validMappings ++ [(newCol, o)] :=
            mapSet_append (fun p hp => fun hc =>
              hdisj p hp (by rw [hc]; exact List.mem_cons_self _ _))
          rw [hset] at h
          have hdisj2 : ∀ p ∈ acc.validMappings ++ [(newCol, o)],
              p.1 ∉ rest.map Prod.fst := by
            intro p hp
            rcases List.mem_append.mp hp with hp2 | hp2
            · exact fun hc =>
                hdisj p hp2 (List.mem_cons_of_mem _ hc)
            · rw [List.mem_singleton] at hp2
              rw [hp2]
              exact hnd.1
          obtain ⟨t, ht, hs⟩ :=
            ih ⟨acc.validMappings ++ [(newCol, o)], acc.missingColumns⟩
              r h hnd.2 hdisj2
          refine ⟨(newCol, o) :: t, ?_, ?_⟩
          · rw [ht]
            simp
          · rw [List.map_cons]
            exact hs.cons₂ _
        · rw [if_neg hboth] at h
          obtain ⟨t, ht, hs⟩ := ih _ r h hnd.2
            (fun p hp => fun hc =>
              hdisj p hp (List.mem_cons_of_mem _ hc))
          exact ⟨t, ht, hs.cons _⟩

/-- Claim C4 (amended): loading parses each non-blank line by splitting
on the arrow; a line without the arrow still yields a mapping entry at
load time, with the old side missing (undefined).  During resolution a
mapping whose side is an EMPTY string is dropped from the valid set
without failing resolution (resolution succeeds whenever no old side is
missing), but — contrary to the original claim — a mapping whose old
side is MISSING makes resolution throw a TypeError (toLowerCase is
called on undefined), it is not dropped. -/
theorem spec_c4_amended
    (l : String) (oldTableCols newTableCols : List String) (r : ResolveOut)
    (ms : List (String × Option String))
    (hblank : jsTrim l ≠ "") (hline : splitNl l = [l])
    (harrow : splitArrow l = [l])
    (hr : verifyAttributeColumns ms oldTableCols newTableCols
      = Except.ok r)
    (hoe : (oldTableCols.map lowerStr).contains "" = false)
    (hne : (newTableCols.map lowerStr).contains "" = false) :
    loadAttributeMappings l = [(jsTrim l, none)]
    ∧ (∀ ms2 : List (String × Option String), (∀ p ∈ ms2, p.2 ≠ none) →
        exceptOk (verifyAttributeColumns ms2 oldTableCols newTableCols)
          = true)
    ∧ (∀ p ∈ r.validMappings, p.1 ≠ "" ∧ p.2 ≠ "")
    ∧ (∀ ms3 : List (String × Option String), (∃ p ∈ ms3, p.2 = none) →
        exceptOk (verifyAttributeColumns ms3 oldTableCols newTableCols)
          = false) := by
  refine ⟨?_, ?_, ?_, ?_⟩
  · unfold loadAttributeMappings
    rw [hline]
    simp only [List.foldl, if_pos hblank, harrow]
    rfl
  · intro ms2 h2
    exact verifyAttrGo_ok _ _ ms2 _ h2
  · intro p hp
    unfold verifyAttributeColumns at hr
    rcases verifyAttrGo_valid _ _ ms _ r hr p hp with hc | hc
    · exact absurd hc (List.not_mem_nil p)
    · constructor
      · intro he
        rw [he] at hc
        have : (lowerStr "") = "" := rfl
        rw [this] at hc
        rw [hc.2.2.2] at hne
        exact absurd hne (by simp)
      · intro he
        rw [he] at hc
        have : (lowerStr "") = "" := rfl
        rw [this] at hc
        rw [hc.2.2.1] at hoe
        exact absurd hoe (by simp)
  · intro ms3 h3
    exact verifyAttrGo_err _ _ ms3 _ h3

/-- Claim C4 counterexample: the one-line mapping file containing just
the word brand (no arrow) loads as an entry whose old side is missing,
and resolving that mapping set does not drop the entry — it throws
(resolution returns no value), contradicting the claim that mappings
with a missing side are dropped during resolution without failing it. -/
theorem spec_c4_cex :
    loadAttributeMappings "brand" = [("brand", none)]
      ∧ exceptOk (verifyAttributeColumns [("brand", none)] ["brand"]
          ["brand"]) = false := by
  decide

/-- Witness: the amended claim C4 at a concrete mapping line and mapping
set.  The set holds an empty-sided mapping that resolves to nothing yet
resolution succeeds, and the valid mapping set of the run keeps only
non-empty sides. -/
theorem spec_c4_witness :
    loadAttributeMappings "colour" = [(jsTrim "colour", none)]
    ∧ (∀ ms2 : List (String × Option String), (∀ p ∈ ms2, p.2 ≠ none) →
        exceptOk (verifyAttributeColumns ms2 ["colour_old"]
          ["colour_new"]) = true)
    ∧ (∀ p ∈ (ResolveOut.mk [("colour_new", "colour_old")]
        ⟨[⟨" -> ", ""⟩], [⟨" -> ", ""⟩]⟩).validMappings,
        p.1 ≠ "" ∧ p.2 ≠ "")
    ∧ (∀ ms3 : List (String × Option String), (∃ p ∈ ms3, p.2 = none) →
        exceptOk (verifyAttributeColumns ms3 ["colour_old"]
          ["colour_new"]) = false) :=
  spec_c4_amended "colour" ["colour_old"] ["colour_new"]
    (ResolveOut.mk [("colour_new", "colour_old")]
      ⟨[⟨" -> ", ""⟩], [⟨" -> ", ""⟩]⟩)
    [("colour_new", some "colour_old"), ("", some "")]
    (by decide) (by decide) (by decide) (by decide) (by decide) (by decide)

/-- Claim C5: on a successful resolver run, every valid mapping has its
old column present case-insensitively in the old schema and its new
column present in the new schema; every non-resolving side of a
non-ignored mapping is recorded in the missing-column report under the
side that failed (a mapping failing on both sides appears in both
lists); and the input order of the mappings is preserved in the valid
list (it is a subsequence of the input; mapping sets come from a JS Map,
so their keys are distinct). -/
theorem spec_c5_resolution (ms : List (String × Option String))
    (oldTableCols newTableCols : List String) (r : ResolveOut)
    (hr : verifyAttributeColumns ms oldTableCols newTableCols
      = Except.ok r)
    (hkeys : (ms.map Prod.fst).Nodup) :
    (∀ p ∈ r.validMappings,
      (oldTableCols.map lowerStr).contains (lowerStr p.2) = true
        ∧ (newTableCols.map lowerStr).contains (lowerStr p.1) = true)
    ∧ (∀ n o, (n, some o) ∈ ms →
        ignoredOldColumns.contains o = false →
        ((oldTableCols.map lowerStr).contains (lowerStr o) = false →
          (⟨n ++ " -> " ++ o, o⟩ : MissingMapEntry)
            ∈ r.missingColumns.oldTable)
        ∧ ((newTableCols.map lowerStr).contains (lowerStr n) = false →
          (⟨n ++ " -> " ++ o, n⟩ : MissingMapEntry)
            ∈ r.missingColumns.newTable))
    ∧ List.Sublist (r.validMappings.map (fun p => (p.1, some p.2))) ms := by
  unfold verifyAttributeColumns at hr
  refine ⟨?_, ?_, ?_⟩
  · intro p hp
    rcases verifyAttrGo_valid _ _ ms _ r hr p hp with hc | hc
    · exact absurd hc (List.not_mem_nil p)
    · exact ⟨hc.2.2.1, hc.2.2.2⟩
  · intro n o hmem hnig
    exact verifyAttrGo_missing_complete _ _ ms _ r hr n o hmem hnig
  · obtain ⟨t, ht, hs⟩ := verifyAttrGo_order _ _ ms _ r hr hkeys
      (by intro p hp; exact absurd hp (List.not_mem_nil p))
    rw [ht]
    simpa using hs

/-- Input mapping set of the C5 witness. -/
def c5Ms : List (String × Option String) :=
  [("n1", some "o1"), ("gone", some "missing_old"), ("n3", some "o3")]

/-- Resolver output of the C5 witness. -/
def c5Out : ResolveOut :=
  ⟨[("n1", "o1"), ("n3", "o3")],
    ⟨[⟨"gone -> missing_old", "missing_old"⟩],
      [⟨"gone -> missing_old", "gone"⟩]⟩⟩

/-- Witness: claim C5 at a concrete mapping set against schemas with
mixed case, one mapping failing on both sides. -/
theorem spec_c5_witness :
    (∀ p ∈ c5Out.validMappings,
      ((["O1", "o3"] : List String).map lowerStr).contains
          (lowerStr p.2) = true
        ∧ ((["N1", "n3"] : List String).map lowerStr).contains
          (lowerStr p.1) = true)
    ∧ (∀ n o, (n, some o) ∈ c5Ms →
        ignoredOldColumns.contains o = false →
        (((["O1", "o3"] : List String).map lowerStr).contains
            (lowerStr o) = false →
          (⟨n ++ " -> " ++ o, o⟩ : MissingMapEntry)
            ∈ c5Out.missingColumns.oldTable)
        ∧ (((["N1", "n3"] : List String).map lowerStr).contains
            (lowerStr n) = false →
          (⟨n ++ " -> " ++ o, n⟩ : MissingMapEntry)
            ∈ c5Out.missingColumns.newTable))
    ∧ List.Sublist (c5Out.validMappings.map (fun p => (p.1, some p.2)))
        c5Ms :=
  spec_c5_resolution c5Ms ["O1", "o3"] ["N1", "n3"] c5Out (by decide)
    (by decide)

lemma keys_nodup_unique {β : Type} {ms : List (String × β)}
    (h : (ms.map Prod.fst).Nodup) {a : String} {b c : β}
    (h1 : (a, b) ∈ ms) (h2 : (a, c) ∈ ms) : b = c := by
  induction ms with
  | nil => exact absurd h1 (List.not_mem_nil _)
  | cons hd rest ih =>
    rw [List.map_cons, List.nodup_cons] at h
    rcases List.mem_cons.mp h1 with he1 | he1 <;>
      rcases List.mem_cons.mp h2 with he2 | he2
    · rw [← he2] at he1
      exact (Prod.mk.injEq _ _ _ _ ▸ he1).2
    · have hm : a ∈ rest.map Prod.fst := by
        simpa using List.mem_map_of_mem Prod.fst he2
      have hhd : hd.1 = a := by rw [← he1]
      exact absurd hm (hhd ▸ h.1)
    · have hm : a ∈ rest.map Prod.fst := by
        simpa using List.mem_map_of_mem Prod.fst he1
      have hhd : hd.1 = a := by rw [← he2]
      exact absurd hm (hhd ▸ h.1)
    · exact ih h.2 he1 he2

/-- The column pairs for which the attribute and category comparators
issue a comparison query: every mapping with truthy (non-empty, defined)
sides, regardless of the query outcome. -/
def queriedAttrPairs : List (String × Option String) →
    List (String × String)
  | [] => []
  | (newCol, oldCol) :: rest =>
    if newCol = "" then queriedAttrPairs rest
    else
      match oldCol with
      | none => queriedAttrPairs rest
      | some o =>
        if o = "" then queriedAttrPairs rest
        else (newCol, o) :: queriedAttrPairs rest

lemma queriedAttrPairs_src {ms : List (String × Option String)}
    {p : String × String} (h : p ∈ queriedAttrPairs ms) :
    (p.1, some p.2) ∈ ms := by
  induction ms with
  | nil => exact absurd h (List.not_mem_nil p)
  | cons hd rest ih =>
    obtain ⟨newCol, oldCol⟩ := hd
    simp only [queriedAttrPairs] at h
    by_cases hn : newCol = ""
    · rw [if_pos hn] at h
      exact List.mem_cons_of_mem _ (ih h)
    · rw [if_neg hn] at h
      cases oldCol with
      | none => exact List.mem_cons_of_mem _ (ih h)
      | some o =>
        simp only at h
        by_cases ho : o = ""
        · rw [if_pos ho] at h
          exact List.mem_cons_of_mem _ (ih h)
        · rw [if_neg ho] at h
          rcases List.mem_cons.mp h with he | he
          · rw [he]
            exact List.mem_cons_self _ _
          · exact List.mem_cons_of_mem _ (ih he)

/-- The columns for which the common-column comparator issues a
comparison query: every truthy entry of its input list. -/
def queriedCommonCols : List String → List String
  | [] => []
  | c :: rest =>
    if c = "" then queriedCommonCols rest
    else c :: queriedCommonCols rest

lemma queriedCommonCols_src {cols : List String} {c : String}
    (h : c ∈ queriedCommonCols cols) : c ∈ cols := by
  induction cols with
  | nil => exact absurd h (List.not_mem_nil c)
  | cons hd rest ih =>
    simp only [queriedCommonCols] at h
    by_cases hh : hd = ""
    · rw [if_pos hh] at h
      exact List.mem_cons_of_mem _ (ih h)
    · rw [if_neg hh] at h
      rcases List.mem_cons.mp h with he | he
      · rw [he]; exact List.mem_cons_self _ _
      · exact List.mem_cons_of_mem _ (ih he)

lemma verifyCommonGo_no_ignored (oldNames newNames : List String)
    (c : String) (hc : ignoredOldColumns.contains c = true) :
    ∀ (ds : List String) (acc : CommonColsOut),
      c ∉ acc.availableColumns →
      c ∉ acc.missingColumns.oldTable →
      c ∉ acc.missingColumns.newTable →
      c ∉ (verifyCommonGo oldNames newNames acc ds).availableColumns
        ∧ c ∉ (verifyCommonGo oldNames newNames acc
            ds).missingColumns.oldTable
        ∧ c ∉ (verifyCommonGo oldNames newNames acc
            ds).missingColumns.newTable := by
  intro ds
  induction ds with
  | nil =>
    intro acc h1 h2 h3
    exact ⟨h1, h2, h3⟩
  | cons column rest ih =>
    intro acc h1 h2 h3
    simp only [verifyCommonGo]
    by_cases hig : ignoredOldColumns.contains column = true
    · rw [if_pos hig]
      exact ih acc h1 h2 h3
    · rw [if_neg hig]
      have hne : column ≠ c := fun he => hig (he ▸ hc)
      by_cases hboth :
          (oldNames.contains (lowerStr column)
            && newNames.contains (lowerStr column)) = true
      · rw [if_pos hboth]
        apply ih
        · intro hmem
          rcases List.mem_append.mp hmem with hm | hm
          · exact h1 hm
          · rw [List.mem_singleton] at hm
            exact hne hm.symm
        · exact h2
        · exact h3
      · rw [if_neg hboth]
        apply ih
        · exact h1
        · intro hmem
          rcases List.mem_append.mp hmem with hm | hm
          · exact h2 hm
          · by_cases hcold : oldNames.contains (lowerStr column) = true
            · rw [if_pos hcold] at hm
              exact List.not_mem_nil c hm
            · rw [if_neg hcold] at hm
              rw [List.mem_singleton] at hm
              exact hne hm.symm
        · intro hmem
          rcases List.mem_append.mp hmem with hm | hm
          · exact h3 hm
          · by_cases hcnew : newNames.contains (lowerStr column) = true
            · rw [if_pos hcnew] at hm
              exact List.not_mem_nil c hm
            · rw [if_neg hcnew] at hm
              rw [List.mem_singleton] at hm
              exact hne hm.symm

/-- Claim C6: a mapping whose old column is in the configured ignore set
is skipped before any check: it never appears in the valid mappings,
never contributes a missing-column diagnostic on either side, and its
columns are never part of a comparison query (the comparators query only
the valid mappings); likewise an ignored name in the desired
common-column list is never available, diagnosed, or queried. -/
theorem spec_c6_ignored (ms : List (String × Option String))
    (oldTableCols newTableCols : List String) (r : ResolveOut)
    (n o : String)
    (hr : verifyAttributeColumns ms oldTableCols newTableCols
      = Except.ok r)
    (hkeys : (ms.map Prod.fst).Nodup)
    (hmem : (n, some o) ∈ ms)
    (hig : ignoredOldColumns.contains o = true) :
    (∀ p ∈ r.validMappings, p.2 ≠ o)
    ∧ (∀ e ∈ r.missingColumns.oldTable, e.missingColumn ≠ o)
    ∧ (∀ e ∈ r.missingColumns.newTable, e.missingColumn ≠ n)
    ∧ (∀ pq ∈ queriedAttrPairs
        (r.validMappings.map (fun p => (p.1, some p.2))), pq.2 ≠ o)
    ∧ (∀ c, ignoredOldColumns.contains c = true →
        c ∉ (verifyCommonColumns oldTableCols
            newTableCols).availableColumns
        ∧ c ∉ (verifyCommonColumns oldTableCols
            newTableCols).missingColumns.oldTable
        ∧ c ∉ (verifyCommonColumns oldTableCols
            newTableCols).missingColumns.newTable
        ∧ c ∉ queriedCommonCols (verifyCommonColumns oldTableCols
            newTableCols).availableColumns) := by
  unfold verifyAttributeColumns at hr
  have hvalid : ∀ p ∈ r.validMappings, p.2 ≠ o := by
    intro p hp he
    rcases verifyAttrGo_valid _ _ ms _ r hr p hp with hc | hc
    · exact absurd hc (List.not_mem_nil p)
    · rw [he] at hc
      rw [hc.2.1] at hig
      exact absurd hig (by simp)
  refine ⟨hvalid, ?_, ?_, ?_, ?_⟩
  · intro e he hcon
    rcases (verifyAttrGo_missing_src _ _ ms _ r hr).1 e he with
      hc | ⟨n2, o2, _, hnig, hcol⟩
    · exact absurd hc (List.not_mem_nil e)
    · rw [hcon] at hcol
      rw [hcol] at hig
      rw [hnig] at hig
      exact absurd hig (by simp)
  · intro e he hcon
    rcases (verifyAttrGo_missing_src _ _ ms _ r hr).2 e he with
      hc | ⟨n2, o2, hsrc, hnig, hcol⟩
    · exact absurd hc (List.not_mem_nil e)
    · rw [hcon] at hcol
      rw [← hcol] at hsrc
      have : some o2 = some o := keys_nodup_unique hkeys hsrc hmem
      rw [Option.some.inj this] at hnig
      rw [hnig] at hig
      exact absurd hig (by simp)
  · intro pq hpq hcon
    have hsrc := queriedAttrPairs_src hpq
    rw [List.mem_map] at hsrc
    obtain ⟨p, hp, hpe⟩ := hsrc
    have hp2 : p.2 = pq.2 :=
      Option.some.inj (Prod.mk.injEq _ _ _ _ ▸ hpe).2
    exact hvalid p hp (by rw [hp2, hcon])
  · intro c hc
    have h := verifyCommonGo_no_ignored (oldTableCols.map lowerStr)
      (newTableCols.map lowerStr) c hc desiredCommonColumns
      ⟨[], ⟨[], []⟩⟩ (List.not_mem_nil c) (List.not_mem_nil c)
      (List.not_mem_nil c)
    refine ⟨h.1, h.2.1, h.2.2, ?_⟩
    intro hq
    exact h.1 (queriedCommonCols_src hq)

/-- Mapping set of the C6 witness: one ignored mapping (old side sku is
in the ignore list) among two ordinary ones. -/
def c6Ms : List (String × Option String) :=
  [("n1", some "o1"), ("sku_new", some "sku"), ("lost", some "gone")]

/-- Resolver output of the C6 witness: the ignored mapping left no
trace. -/
def c6Out : ResolveOut :=
  ⟨[("n1", "o1")],
    ⟨[⟨"lost -> gone", "gone"⟩], [⟨"lost -> gone", "lost"⟩]⟩⟩

/-- Witness: claim C6 at a concrete mapping set whose sku mapping is
ignored. -/
theorem spec_c6_witness :
    (∀ p ∈ c6Out.validMappings, p.2 ≠ "sku")
    ∧ (∀ e ∈ c6Out.missingColumns.oldTable, e.missingColumn ≠ "sku")
    ∧ (∀ e ∈ c6Out.missingColumns.newTable, e.missingColumn ≠ "sku_new")
    ∧ (∀ pq ∈ queriedAttrPairs
        (c6Out.validMappings.map (fun p => (p.1, some p.2))),
        pq.2 ≠ "sku")
    ∧ (∀ c, ignoredOldColumns.contains c = true →
        c ∉ (verifyCommonColumns ["o1", "sku", "name"]
            ["n1", "sku", "name"]).availableColumns
        ∧ c ∉ (verifyCommonColumns ["o1", "sku", "name"]
            ["n1", "sku", "name"]).missingColumns.oldTable
        ∧ c ∉ (verifyCommonColumns ["o1", "sku", "name"]
            ["n1", "sku", "name"]).missingColumns.newTable
        ∧ c ∉ queriedCommonCols (verifyCommonColumns ["o1", "sku", "name"]
            ["n1", "sku", "name"]).availableColumns) :=
  spec_c6_ignored c6Ms ["o1", "sku", "name"] ["n1", "sku", "name"] c6Out
    "sku_new" "sku" (by decide) (by decide) (by decide) (by decide)

lemma compareAttr_mono (q : String → String → Except String (List AttrDiff))
    (hd : String × Option String) (rest : List (String × Option String))
    {d : AttrMismatch} (h : d ∈ compareAttributeValues q rest) :
    d ∈ compareAttributeValues q (hd :: rest) := by
  obtain ⟨n1, oc1⟩ := hd
  simp only [compareAttributeValues]
  by_cases hn1 : n1 = ""
  · rw [if_pos hn1]; exact h
  · rw [if_neg hn1]
    cases oc1 with
    | none => exact h
    | some o1 =>
      simp only
      by_cases ho1 : o1 = ""
      · rw [if_pos ho1]; exact h
      · rw [if_neg ho1]
        cases hq1 : q n1 o1 with
        | error e => exact h
        | ok rs =>
          cases rs with
          | nil => exact h
          | cons x xs => exact List.mem_cons_of_mem _ h

lemma compareAttr_push
    (q : String → String → Except String (List AttrDiff)) :
    ∀ (ms : List (String × Option String)) (newCol o : String)
      (results : List AttrDiff),
      (newCol, some o) ∈ ms → newCol ≠ "" → o ≠ "" →
      q newCol o = Except.ok results → results ≠ [] →
      (⟨o, newCol, results⟩ : AttrMismatch)
        ∈ compareAttributeValues q ms := by
  intro ms
  induction ms with
  | nil =>
    intro newCol o results hmem _ _ _ _
    exact absurd hmem (List.not_mem_nil _)
  | cons hd rest ih =>
    intro newCol o results hmem hn ho hq hres
    rcases List.mem_cons.mp hmem with he | he
    · rw [← he]
      simp only [compareAttributeValues]
      rw [if_neg hn, if_neg ho, hq]
      cases results with
      | nil => exact absurd rfl hres
      | cons x xs => exact List.mem_cons_self _ _
    · exact compareAttr_mono q hd rest (ih newCol o results he hn ho hq hres)

lemma compareAttr_src
    (q : String → String → Except String (List AttrDiff)) :
    ∀ (ms : List (String × Option String)),
      ∀ m ∈ compareAttributeValues q ms,
        (m.new_column, some m.old_column) ∈ ms
          ∧ q m.new_column m.old_column = Except.ok m.differences
          ∧ m.differences ≠ [] := by
  intro ms
  induction ms with
  | nil =>
    intro m hm
    exact absurd hm (List.not_mem_nil m)
  | cons hd rest ih =>
    intro m hm
    obtain ⟨n1, oc1⟩ := hd
    simp only [compareAttributeValues] at hm
    by_cases hn1 : n1 = ""
    · rw [if_pos hn1] at hm
      have h2 := ih m hm
      exact ⟨List.mem_cons_of_mem _ h2.1, h2.2⟩
    · rw [if_neg hn1] at hm
      cases oc1 with
      | none =>
        have h2 := ih m hm
        exact ⟨List.mem_cons_of_mem _ h2.1, h2.2⟩
      | some o1 =>
        simp only at hm
        by_cases ho1 : o1 = ""
        · rw [if_pos ho1] at hm
          have h2 := ih m hm
          exact ⟨List.mem_cons_of_mem _ h2.1, h2.2⟩
        · rw [if_neg ho1] at hm
          cases hq1 : q n1 o1 with
          | error e =>
            rw [hq1] at hm
            have h2 := ih m hm
            exact ⟨List.mem_cons_of_mem _ h2.1, h2.2⟩
          | ok rs =>
            rw [hq1] at hm
            cases rs with
            | nil =>
              have h2 := ih m hm
              exact ⟨List.mem_cons_of_mem _ h2.1, h2.2⟩
            | cons x xs =>
              rcases List.mem_cons.mp hm with he | he
              · rw [he]
                exact ⟨List.mem_cons_self _ _, hq1, by simp⟩
              · have h2 := ih m he
                exact ⟨List.mem_cons_of_mem _ h2.1, h2.2⟩

lemma compareCommon_mono (qc : String → Except String (List AttrDiff))
    (hd : String) (rest : List String) {d : CommonMismatch}
    (h : d ∈ compareCommonColumns qc rest) :
    d ∈ compareCommonColumns qc (hd :: rest) := by
  simp only [compareCommonColumns]
  by_cases hh : hd = ""
  · rw [if_pos hh]; exact h
  · rw [if_neg hh]
    cases hq1 : qc hd with
    | error e => exact h
    | ok rs =>
      cases rs with
      | nil => exact h
      | cons x xs => exact List.mem_cons_of_mem _ h

lemma compareCommon_push (qc : String → Except String (List AttrDiff)) :
    ∀ (cols : List String) (c : String) (cresults : List AttrDiff),
      c ∈ cols → c ≠ "" → qc c = Except.ok cresults → cresults ≠ [] →
      (⟨c, cresults⟩ : CommonMismatch) ∈ compareCommonColumns qc cols := by
  intro cols
  induction cols with
  | nil =>
    intro c cresults hmem _ _ _
    exact absurd hmem (List.not_mem_nil c)
  | cons hd rest ih =>
    intro c cresults hmem hc hq hres
    rcases List.mem_cons.mp hmem with he | he
    · rw [← he]
      simp only [compareCommonColumns]
      rw [if_neg hc, hq]
      cases cresults with
      | nil => exact absurd rfl hres
      | cons x xs => exact List.mem_cons_self _ _
    · exact compareCommon_mono qc hd rest (ih c cresults he hc hq hres)

lemma compareCommon_src (qc : String → Except String (List AttrDiff)) :
    ∀ (cols : List String),
      ∀ m ∈ compareCommonColumns qc cols,
        m.column ∈ cols ∧ qc m.column = Except.ok m.differences
          ∧ m.differences ≠ [] := by
  intro cols
  induction cols with
  | nil =>
    intro m hm
    exact absurd hm (List.not_mem_nil m)
  | cons hd rest ih =>
    intro m hm
    simp only [compareCommonColumns] at hm
    by_cases hh : hd = ""
    · rw [if_pos hh] at hm
      have h2 := ih m hm
      exact ⟨List.mem_cons_of_mem _ h2.1, h2.2⟩
    · rw [if_neg hh] at hm
      cases hq1 : qc hd with
      | error e =>
        rw [hq1] at hm
        have h2 := ih m hm
        exact ⟨List.mem_cons_of_mem _ h2.1, h2.2⟩
      | ok rs =>
        rw [hq1] at hm
        cases rs with
        | nil =>
          have h2 := ih m hm
          exact ⟨List.mem_cons_of_mem _ h2.1, h2.2⟩
        | cons x xs =>
          rcases List.mem_cons.mp hm with he | he
          · rw [he]
            exact ⟨List.mem_cons_self _ _, hq1, by simp⟩
          · have h2 := ih m he
            exact ⟨List.mem_cons_of_mem _ h2.1, h2.2⟩

/-- Claim C7: a required price column is reported missing exactly when it
is absent (case-insensitively) from the corresponding schema; some
required column is absent from either side exactly when a missing list
is non-empty; and in that case the orchestrator records the report,
skips the comparePrices step entirely, treats this as no error, and the
tenant run completes through the disconnect. -/
theorem spec_c7_price_gate (oldCols newCols : List String)
    (q : VStep → Except String (Nat × Bool)) (v : Nat × Bool)
    (hok : ∀ s2, s2 ≠ VStep.connect → s2 ≠ VStep.cmpPrice →
      exceptOk (q s2) = true)
    (hpc : q VStep.priceCols = Except.ok v) (hv : v.2 = false) :
    (∀ c ∈ requiredPriceColumns,
      ((oldCols.map lowerStr).contains (lowerStr c) = false ↔
          c ∈ (verifyPriceColumns oldCols newCols).oldTable)
        ∧ ((newCols.map lowerStr).contains (lowerStr c) = false ↔
          c ∈ (verifyPriceColumns oldCols newCols).newTable))
    ∧ (((verifyPriceColumns oldCols newCols).oldTable ≠ []
          ∨ (verifyPriceColumns oldCols newCols).newTable ≠ []) ↔
        ∃ c ∈ requiredPriceColumns,
          (oldCols.map lowerStr).contains (lowerStr c) = false
            ∨ (newCols.map lowerStr).contains (lowerStr c) = false)
    ∧ runBody q =
        ⟨⟨pay q VStep.verifyAttrCols, pay q VStep.verifyCatCols,
            pay q VStep.verifyCommonCols, some v.1, pay q VStep.skuCheck,
            pay q VStep.cmpAttr, pay q VStep.cmpCat,
            pay q VStep.cmpCommon, none⟩,
          vOrder.take 9, none, true⟩
    ∧ VStep.cmpPrice ∉ vOrder.take 9 := by
  refine ⟨?_, ?_, ?_, ?_⟩
  · intro c hc
    constructor
    · simp [verifyPriceColumns, List.mem_filter, hc]
    · simp [verifyPriceColumns, List.mem_filter, hc]
  · constructor
    · intro h
      rcases h with h | h
      · obtain ⟨c, hmem⟩ := List.exists_mem_of_ne_nil _ h
        rw [verifyPriceColumns] at hmem
        rw [List.mem_filter] at hmem
        refine ⟨c, hmem.1, Or.inl ?_⟩
        simpa using hmem.2
      · obtain ⟨c, hmem⟩ := List.exists_mem_of_ne_nil _ h
        rw [verifyPriceColumns] at hmem
        rw [List.mem_filter] at hmem
        refine ⟨c, hmem.1, Or.inr ?_⟩
        simpa using hmem.2
    · rintro ⟨c, hc, hside⟩
      rcases hside with hside | hside
      · left
        intro hnil
        have : c ∈ (verifyPriceColumns oldCols newCols).oldTable := by
          rw [verifyPriceColumns]
          rw [List.mem_filter]
          exact ⟨hc, by simpa using hside⟩
        rw [hnil] at this
        exact List.not_mem_nil c this
      · right
        intro hnil
        have : c ∈ (verifyPriceColumns oldCols newCols).newTable := by
          rw [verifyPriceColumns]
          rw [List.mem_filter]
          exact ⟨hc, by simpa using hside⟩
        rw [hnil] at this
        exact List.not_mem_nil c this
  · exact runBody_gate_closed_char q hok v hpc hv
  · decide

/-- Oracle of the C7 witness: the price-column check reports missing
columns (gate closed), everything else succeeds. -/
def c7WitOracle (s : VStep) : Except String (Nat × Bool) :=
  if s = VStep.priceCols then Except.ok (5, false) else Except.ok (1, true)

/-- Witness: claim C7 with an old price schema missing the spp column. -/
theorem spec_c7_witness :
    (∀ c ∈ requiredPriceColumns,
      (((["sku_code", "price_book_id", "mrp", "rsp"] : List String).map
            lowerStr).contains (lowerStr c) = false ↔
          c ∈ (verifyPriceColumns ["sku_code", "price_book_id", "mrp",
            "rsp"] requiredPriceColumns).oldTable)
        ∧ ((requiredPriceColumns.map lowerStr).contains (lowerStr c)
            = false ↔
          c ∈ (verifyPriceColumns ["sku_code", "price_book_id", "mrp",
            "rsp"] requiredPriceColumns).newTable))
    ∧ (((verifyPriceColumns ["sku_code", "price_book_id", "mrp", "rsp"]
            requiredPriceColumns).oldTable ≠ []
          ∨ (verifyPriceColumns ["sku_code", "price_book_id", "mrp",
            "rsp"] requiredPriceColumns).newTable ≠ []) ↔
        ∃ c ∈ requiredPriceColumns,
          ((["sku_code", "price_book_id", "mrp", "rsp"] : List String).map
              lowerStr).contains (lowerStr c) = false
            ∨ (requiredPriceColumns.map lowerStr).contains (lowerStr c)
              = false)
    ∧ runBody c7WitOracle =
        ⟨⟨pay c7WitOracle VStep.verifyAttrCols,
            pay c7WitOracle VStep.verifyCatCols,
            pay c7WitOracle VStep.verifyCommonCols, some (5, false).1,
            pay c7WitOracle VStep.skuCheck, pay c7WitOracle VStep.cmpAttr,
            pay c7WitOracle VStep.cmpCat, pay c7WitOracle VStep.cmpCommon,
            none⟩,
          vOrder.take 9, none, true⟩
    ∧ VStep.cmpPrice ∉ vOrder.take 9 :=
  spec_c7_price_gate ["sku_code", "price_book_id", "mrp", "rsp"]
    requiredPriceColumns c7WitOracle (5, false) (by decide) rfl rfl

/-- Claim C8: a failing per-mapping query never aborts the comparator:
for any connection oracle — in particular one failing on other mappings
— every validated mapping with a successful non-empty query result still
contributes its mismatch entry to the returned list, and conversely
every returned entry comes from a mapping of the input whose query
succeeded with a non-empty result; the same holds for the common-column
comparator. -/
theorem spec_c8_partial_failure
    (q : String → String → Except String (List AttrDiff))
    (ms : List (String × Option String)) (newCol o : String)
    (results : List AttrDiff)
    (qc : String → Except String (List AttrDiff)) (cols : List String)
    (c : String) (cresults : List AttrDiff)
    (hmem : (newCol, some o) ∈ ms) (hn : newCol ≠ "") (ho : o ≠ "")
    (hq : q newCol o = Except.ok results) (hres : results ≠ [])
    (hcmem : c ∈ cols) (hc : c ≠ "") (hqc : qc c = Except.ok cresults)
    (hcres : cresults ≠ []) :
    (⟨o, newCol, results⟩ : AttrMismatch) ∈ compareAttributeValues q ms
    ∧ (∀ m ∈ compareAttributeValues q ms,
        (m.new_column, some m.old_column) ∈ ms
          ∧ q m.new_column m.old_column = Except.ok m.differences
          ∧ m.differences ≠ [])
    ∧ (⟨c, cresults⟩ : CommonMismatch) ∈ compareCommonColumns qc cols
    ∧ (∀ m ∈ compareCommonColumns qc cols,
        m.column ∈ cols ∧ qc m.column = Except.ok m.differences
          ∧ m.differences ≠ []) :=
  ⟨compareAttr_push q ms newCol o results hmem hn ho hq hres,
    compareAttr_src q ms,
    compareCommon_push qc cols c cresults hcmem hc hqc hcres,
    compareCommon_src qc cols⟩

/-- Attribute-comparator oracle of the C8 witness: the query for the bad
mapping fails, the query for the good mapping returns one difference
row. -/
def c8AttrOracle (n _o : String) : Except String (List AttrDiff) :=
  if n = "bad" then Except.error "ER_BAD_FIELD_ERROR"
  else if n = "good" then
    Except.ok [⟨some "S1", some "x", some "y"⟩]
  else Except.ok []

/-- Common-column oracle of the C8 witness: the name query fails, the
tax_type query returns one difference row. -/
def c8CommonOracle (col : String) : Except String (List AttrDiff) :=
  if col = "name" then Except.error "ER_QUERY_TIMEOUT"
  else if col = "tax_type" then
    Except.ok [⟨some "S2", none, some "GST"⟩]
  else Except.ok []

/-- Witness: claim C8 with a two-mapping list whose first query fails
and a two-column list whose first query fails; the surviving results are
still returned. -/
theorem spec_c8_witness :
    (⟨"g_old", "good", [⟨some "S1", some "x", some "y"⟩]⟩ : AttrMismatch)
        ∈ compareAttributeValues c8AttrOracle
          [("bad", some "b_old"), ("good", some "g_old")]
    ∧ (∀ m ∈ compareAttributeValues c8AttrOracle
          [("bad", some "b_old"), ("good", some "g_old")],
        (m.new_column, some m.old_column)
            ∈ [("bad", some "b_old"), ("good", some "g_old")]
          ∧ c8AttrOracle m.new_column m.old_column
            = Except.ok m.differences
          ∧ m.differences ≠ [])
    ∧ (⟨"tax_type", [⟨some "S2", none, some "GST"⟩]⟩ : CommonMismatch)
        ∈ compareCommonColumns c8CommonOracle ["name", "tax_type"]
    ∧ (∀ m ∈ compareCommonColumns c8CommonOracle ["name", "tax_type"],
        m.column ∈ ["name", "tax_type"]
          ∧ c8CommonOracle m.column = Except.ok m.differences
          ∧ m.differences ≠ []) :=
  spec_c8_partial_failure c8AttrOracle
    [("bad", some "b_old"), ("good", some "g_old")] "good" "g_old"
    [⟨some "S1", some "x", some "y"⟩] c8CommonOracle
    ["name", "tax_type"] "tax_type" [⟨some "S2", none, some "GST"⟩]
    (by decide) (by decide) (by decide) rfl (by decide) (by decide)
    (by decide) rfl (by decide)
